import Mathlib

/-!
# Teller adaptor: enrichment, yield curve, projection and driver

A shallow embedding of `src/adaptors/teller/index.js`.

Number model.  A JavaScript number is idealised as an exact rational, or one of
the three special values NaN, +Infinity, -Infinity (`JSNum`).  Rounding of
binary floating point, overflow to Infinity and the sign of zero are not
modelled.  Values that the source obtains from `parseInt` and from sums and
differences of such values are integers or NaN; they are kept as `Option Int`
(`none` is NaN).
-/

namespace Teller

/-! ## JavaScript numbers -/

/-- A JavaScript number: an exact rational or one of NaN, +Infinity, -Infinity. -/
inductive JSNum where
  | fin (q : ℚ)
  | nan
  | pinf
  | ninf
  deriving DecidableEq

namespace JSNum

/-- Unary minus. -/
def neg : JSNum → JSNum
  | fin q => fin (-q)
  | nan => nan
  | pinf => ninf
  | ninf => pinf

/-- The operator `+` on numbers. -/
def add : JSNum → JSNum → JSNum
  | fin a, fin b => fin (a + b)
  | nan, _ => nan
  | _, nan => nan
  | pinf, ninf => nan
  | ninf, pinf => nan
  | pinf, _ => pinf
  | ninf, _ => ninf
  | fin _, pinf => pinf
  | fin _, ninf => ninf

/-- The operator `-` on numbers. -/
def sub (a b : JSNum) : JSNum := add a (neg b)

/-- An infinity of the sign of `q`, or NaN when `q` is zero. -/
def infOfSign (q : ℚ) : JSNum :=
  if 0 < q then pinf else if q < 0 then ninf else nan

/-- The operator `*` on numbers. -/
def mul : JSNum → JSNum → JSNum
  | fin a, fin b => fin (a * b)
  | nan, _ => nan
  | _, nan => nan
  | pinf, pinf => pinf
  | pinf, ninf => ninf
  | ninf, pinf => ninf
  | ninf, ninf => pinf
  | pinf, fin b => infOfSign b
  | ninf, fin b => infOfSign (-b)
  | fin a, pinf => infOfSign a
  | fin a, ninf => infOfSign (-a)

/-- The operator `/` on numbers (a zero divisor counts as +0). -/
def div : JSNum → JSNum → JSNum
  | fin a, fin b => if b = 0 then infOfSign a else fin (a / b)
  | nan, _ => nan
  | _, nan => nan
  | fin _, pinf => fin 0
  | fin _, ninf => fin 0
  | pinf, fin b => if b < 0 then ninf else pinf
  | ninf, fin b => if b < 0 then pinf else ninf
  | pinf, pinf => nan
  | pinf, ninf => nan
  | ninf, pinf => nan
  | ninf, ninf => nan

/-- The comparison `a <= b` of two numbers; false when either is NaN. -/
def le : JSNum → JSNum → Bool
  | nan, _ => false
  | _, nan => false
  | ninf, _ => true
  | _, pinf => true
  | fin a, fin b => decide (a ≤ b)
  | pinf, _ => false
  | fin _, ninf => false

/-- The comparison `a > b` of two numbers; false when either is NaN. -/
def gt : JSNum → JSNum → Bool
  | nan, _ => false
  | _, nan => false
  | a, b => !(le a b)

/-- The operator `===` on numbers: NaN is equal to nothing. -/
def strictEq : JSNum → JSNum → Bool
  | fin a, fin b => decide (a = b)
  | pinf, pinf => true
  | ninf, ninf => true
  | _, _ => false

/-- The function `Math.max` of two numbers: NaN when either is NaN. -/
def max : JSNum → JSNum → JSNum
  | nan, _ => nan
  | _, nan => nan
  | a, b => if le a b then b else a

/-- The function `Math.min` of two numbers: NaN when either is NaN. -/
def min : JSNum → JSNum → JSNum
  | nan, _ => nan
  | _, nan => nan
  | a, b => if le a b then a else b

/-- An integer-or-NaN value read as a number. -/
def ofInt : Option Int → JSNum
  | some n => fin (n : ℚ)
  | none => nan

/-- Holds of the finite numbers (neither NaN nor an infinity). -/
def isFinite : JSNum → Bool
  | fin _ => true
  | _ => false

end JSNum

/-! ## Integer-valued numbers and `parseInt` -/

/-- The operator `+` on integer-or-NaN values. -/
def intAdd : Option Int → Option Int → Option Int
  | some a, some b => some (a + b)
  | _, _ => none

/-- The operator `-` on integer-or-NaN values. -/
def intSub : Option Int → Option Int → Option Int
  | some a, some b => some (a - b)
  | _, _ => none

/-- The comparison `x > 0` on an integer-or-NaN value; false for NaN. -/
def intGtZero : Option Int → Bool
  | some a => decide (0 < a)
  | none => false

/-- The white space that `parseInt` skips in front of its argument. -/
def isStrWhiteSpace (c : Char) : Bool :=
  c = ' ' || c = '\t' || c = '\n' || c = '\r' || c.toNat = 11 || c.toNat = 12
    || c.toNat = 160 || c.toNat = 5760 || (8192 ≤ c.toNat && c.toNat ≤ 8202)
    || c.toNat = 8232 || c.toNat = 8233 || c.toNat = 8239 || c.toNat = 8287
    || c.toNat = 12288 || c.toNat = 65279

/-- The value of a character as a digit of the given radix, when it is one. -/
def digitValue (radix : Nat) (c : Char) : Option Nat :=
  let v : Option Nat :=
    if c.isDigit then some (c.toNat - 48)
    else if 'a'.toNat ≤ c.toNat ∧ c.toNat ≤ 'z'.toNat then some (c.toNat - 87)
    else if 'A'.toNat ≤ c.toNat ∧ c.toNat ≤ 'Z'.toNat then some (c.toNat - 55)
    else none
  match v with
  | some d => if d < radix then some d else none
  | none => none

/-- Reads the longest run of digits at the front of the characters: the value
read so far, and whether a digit was read. -/
def readDigits (radix : Nat) : List Char → Nat → Bool → Nat × Bool
  | [], acc, seen => (acc, seen)
  | c :: cs, acc, seen =>
    match digitValue radix c with
    | some d => readDigits radix cs (acc * radix + d) true
    | none => (acc, seen)

/-- The sign in front of the digits, and the characters after it. -/
def readSign : List Char → Bool × List Char
  | '-' :: cs => (true, cs)
  | '+' :: cs => (false, cs)
  | cs => (false, cs)

/-- The radix announced by a `0x` or `0X` in front of the digits (16), else 10,
and the characters after it. -/
def readRadix : List Char → Nat × List Char
  | '0' :: 'x' :: cs => (16, cs)
  | '0' :: 'X' :: cs => (16, cs)
  | cs => (10, cs)

/-- The function `parseInt` on the characters of a string, without a radix
argument: white space, a sign, an optional `0x`, then digits; NaN (`none`) when
no digit is read. -/
def parseIntChars (cs : List Char) : Option Int :=
  let (negative, afterSign) := readSign (cs.dropWhile isStrWhiteSpace)
  let (radix, digits) := readRadix afterSign
  match readDigits radix digits 0 false with
  | (v, true) => some (if negative then -(v : Int) else (v : Int))
  | (_, false) => none

/-- The function `parseInt` on a field of a record fetched from the subgraph: a
string, or `none` when the field is missing (`undefined` or `null`, which
`parseInt` reads as NaN). -/
def parseInt : Option String → Option Int
  | some s => parseIntChars s.toList
  | none => none

/-- The leading decimal digit of a natural number. -/
def leadingDigit (n : Nat) : Nat :=
  if h : n < 10 then n else leadingDigit (n / 10)
termination_by n
decreasing_by omega

/-- The function `parseInt` on an integer-valued number.  The number is first
rendered as a string: in plain decimal digits below 10^21, and in exponential
form (`1e+21`, `2.5e+21`) from 10^21 on, of which `parseInt` reads the digits up
to the first `.` or `e`, that is, the leading digit only.  The switch is taken
here on the exact integer; the code takes it on the rounded double, so that a
sum within a rounding error below 10^21 (from 10^21 - 65536 on) is already
rendered `1e+21` there. -/
def parseIntOfNumber : Option Int → Option Int
  | none => none
  | some n =>
    if n.natAbs < 10 ^ 21 then some n
    else if n < 0 then some (-(leadingDigit n.natAbs : Int))
    else some (leadingDigit n.natAbs : Int)

/-! ## Inputs of the enrichment -/

/-- One record of `groupPoolMetrics` as fetched from the subgraph.  The numeric
fields arrive as strings and are read with `parseInt`; `none` is a field that
is missing. -/
structure RawPool where
  id : String
  group_pool_address : String
  principal_token_address : String
  collateral_token_address : String
  shares_token_address : String
  market_id : Option String
  total_principal_tokens_committed : Option String
  total_principal_tokens_withdrawn : Option String
  total_principal_tokens_borrowed : Option String
  total_interest_collected : Option String
  token_difference_from_liquidations : Option String
  total_principal_tokens_repaid : Option String
  total_collateral_tokens_escrowed : Option String
  total_collateral_withdrawn : Option String
  interest_rate_upper_bound : Option String
  interest_rate_lower_bound : Option String
  liquidity_threshold_percent : Option String
  collateral_ratio : Option String

/-- The method `toLowerCase` of a string, on its ASCII letters (token addresses
are hexadecimal). -/
def toLowerCase (s : String) : String := String.mk (s.toList.map Char.toLower)

/-- One entry of the object built by `fetchTokenInfo`. -/
structure TokenEntry where
  symbol : String
  decimals : Int
  deriving DecidableEq

/-- The object `tokens` built by `fetchTokenInfo`, read by key. -/
abbrev TokenInfo := String → Option TokenEntry

/-- The object `pricesByAddress` returned by `utils.getPrices`, read by key:
a price, or `none` when the key is absent. -/
abbrev PricesByAddress := String → Option ℚ

/-- The `output` of `sdk.api.erc20.info`. -/
structure Erc20Output where
  symbol : String
  decimals : Option String

/-- The expression `parseInt(x) || d` : the default `d` replaces NaN and 0. -/
def parseIntOr (x : Option String) (d : Int) : Int :=
  match parseInt x with
  | some n => if n = 0 then d else n
  | none => d

/-- The function `fetchTokenInfo`, as the loop over the addresses that extends
the object `tokens`; `erc20info` is the call `sdk.api.erc20.info(address,
chainString)`, `none` when it throws. -/
def fetchTokenInfoLoop (erc20info : String → Option Erc20Output) :
    List String → TokenInfo → TokenInfo
  | [], tokens => tokens
  | address :: rest, tokens =>
    let entry : TokenEntry :=
      match erc20info address with
      | some output => { symbol := output.symbol, decimals := parseIntOr output.decimals 18 }
      | none => { symbol := "UNKNOWN", decimals := 18 }
    fetchTokenInfoLoop erc20info rest
      (fun key => if key = (toLowerCase address) then some entry else tokens key)

/-- The function `fetchTokenInfo`. -/
def fetchTokenInfo (erc20info : String → Option Erc20Output) (tokenAddresses : List String) :
    TokenInfo :=
  fetchTokenInfoLoop erc20info tokenAddresses (fun _ => none)

/-! ## The enrichment of one pool (`topLvl`, lines 74 to 142) -/

/-- The expression `tokenInfo[address.toLowerCase()]?.decimals || 18`. -/
def decimalsOf (tokenInfo : TokenInfo) (address : String) : Int :=
  match tokenInfo (toLowerCase address) with
  | some entry => if entry.decimals = 0 then 18 else entry.decimals
  | none => 18

/-- The expression `tokenInfo[address.toLowerCase()]?.symbol || 'UNKNOWN'`. -/
def symbolOf (tokenInfo : TokenInfo) (address : String) : String :=
  match tokenInfo (toLowerCase address) with
  | some entry => if entry.symbol = "" then "UNKNOWN" else entry.symbol
  | none => "UNKNOWN"

/-- The expression `parseFloat(pricesByAddress[address.toLowerCase()] || 0)`:
an absent price (and a price 0) gives 0. -/
def priceOf (pricesByAddress : PricesByAddress) (address : String) : ℚ :=
  match pricesByAddress (toLowerCase address) with
  | some price => price
  | none => 0

def principalTokenDecimals (tokenInfo : TokenInfo) (pool : RawPool) : Int :=
  decimalsOf tokenInfo pool.principal_token_address

def principalTokenDivisor (tokenInfo : TokenInfo) (pool : RawPool) : ℚ :=
  (10 : ℚ) ^ principalTokenDecimals tokenInfo pool

def collateralTokenDecimals (tokenInfo : TokenInfo) (pool : RawPool) : Int :=
  decimalsOf tokenInfo pool.collateral_token_address

def collateralTokenDivisor (tokenInfo : TokenInfo) (pool : RawPool) : ℚ :=
  (10 : ℚ) ^ collateralTokenDecimals tokenInfo pool

def totalInterestCollected (pool : RawPool) : Option Int :=
  parseInt pool.total_interest_collected

def tokenDifferenceFromLiquidatons (pool : RawPool) : Option Int :=
  parseInt pool.token_difference_from_liquidations

def totalCollateralEscrowedNet (pool : RawPool) : Option Int :=
  intSub (parseInt pool.total_collateral_tokens_escrowed) (parseInt pool.total_collateral_withdrawn)

def totalCollateralUsd (tokenInfo : TokenInfo) (pricesByAddress : PricesByAddress)
    (pool : RawPool) : JSNum :=
  JSNum.mul (JSNum.ofInt (totalCollateralEscrowedNet pool))
    (JSNum.div (.fin (priceOf pricesByAddress pool.collateral_token_address))
      (.fin (collateralTokenDivisor tokenInfo pool)))

def totalTokensActivelyBorrowed (pool : RawPool) : Option Int :=
  intSub (parseInt pool.total_principal_tokens_borrowed) (parseInt pool.total_principal_tokens_repaid)

def totalTokensActivelyCommitted (pool : RawPool) : Option Int :=
  intSub
    (intAdd (intAdd (parseInt pool.total_principal_tokens_committed) (totalInterestCollected pool))
      (tokenDifferenceFromLiquidatons pool))
    (parseInt pool.total_principal_tokens_withdrawn)

def totalCommitted (pool : RawPool) : Option Int :=
  parseIntOfNumber (totalTokensActivelyCommitted pool)

def totalBorrowed (pool : RawPool) : Option Int :=
  parseIntOfNumber (totalTokensActivelyBorrowed pool)

def totalSupplyUsd (tokenInfo : TokenInfo) (pricesByAddress : PricesByAddress)
    (pool : RawPool) : JSNum :=
  JSNum.mul (JSNum.ofInt (totalCommitted pool))
    (JSNum.div (.fin (priceOf pricesByAddress pool.principal_token_address))
      (.fin (principalTokenDivisor tokenInfo pool)))

def totalBorrowUsd (tokenInfo : TokenInfo) (pricesByAddress : PricesByAddress)
    (pool : RawPool) : JSNum :=
  JSNum.mul (JSNum.ofInt (totalBorrowed pool))
    (JSNum.div (.fin (priceOf pricesByAddress pool.principal_token_address))
      (.fin (principalTokenDivisor tokenInfo pool)))

def tvlUsd (tokenInfo : TokenInfo) (pricesByAddress : PricesByAddress) (pool : RawPool) : JSNum :=
  JSNum.sub (totalSupplyUsd tokenInfo pricesByAddress pool)
    (totalBorrowUsd tokenInfo pricesByAddress pool)

def poolBorrowedPercent (pool : RawPool) : JSNum :=
  if intGtZero (totalCommitted pool) then
    JSNum.min
      (JSNum.max (JSNum.div (JSNum.ofInt (totalBorrowed pool)) (JSNum.ofInt (totalCommitted pool)))
        (.fin 0))
      (.fin 1)
  else .fin 0

def interestRateLowerBound (pool : RawPool) : Int :=
  parseIntOr pool.interest_rate_lower_bound 500

def interestRateUpperBound (pool : RawPool) : Int :=
  parseIntOr pool.interest_rate_upper_bound 1500

/-- Calculate active yield for lenders. -/
def calculateActiveLenderYield (poolBorrowedPercent interestRateLowerBound
    interestRateUpperBound : JSNum) : JSNum :=
  let poolYieldRaw :=
    if JSNum.strictEq poolBorrowedPercent (.fin 0) then interestRateLowerBound
    else if JSNum.strictEq poolBorrowedPercent (.fin 1) then interestRateUpperBound
    else
      let range := JSNum.sub interestRateUpperBound interestRateLowerBound
      JSNum.add interestRateLowerBound (JSNum.mul poolBorrowedPercent range)
  JSNum.mul (JSNum.div poolYieldRaw (.fin 100)) poolBorrowedPercent

/-- Calculate active yield for borrowers. -/
def calculateActiveBorrowerYield (poolBorrowedPercent interestRateLowerBound
    interestRateUpperBound : JSNum) : JSNum :=
  let poolYieldRaw :=
    if JSNum.strictEq poolBorrowedPercent (.fin 0) then interestRateLowerBound
    else if JSNum.strictEq poolBorrowedPercent (.fin 1) then interestRateUpperBound
    else
      let range := JSNum.sub interestRateUpperBound interestRateLowerBound
      JSNum.add interestRateLowerBound (JSNum.mul poolBorrowedPercent range)
  JSNum.div poolYieldRaw (.fin 100)

def apyBase (pool : RawPool) : JSNum :=
  calculateActiveLenderYield (poolBorrowedPercent pool)
    (.fin (interestRateLowerBound pool)) (.fin (interestRateUpperBound pool))

def ltv (pool : RawPool) : JSNum :=
  JSNum.div (.fin 100) (JSNum.div (JSNum.ofInt (parseInt pool.collateral_ratio)) (.fin 100))

def borrowApy (pool : RawPool) : JSNum :=
  calculateActiveBorrowerYield (poolBorrowedPercent pool)
    (.fin (interestRateLowerBound pool)) (.fin (interestRateUpperBound pool))

def principalSymbol (tokenInfo : TokenInfo) (pool : RawPool) : String :=
  symbolOf tokenInfo pool.principal_token_address

def collateralSymbol (tokenInfo : TokenInfo) (pool : RawPool) : String :=
  symbolOf tokenInfo pool.collateral_token_address

/-- The record returned for one pool by the enrichment: the fetched record
(`...pool`) and the computed fields. -/
structure EnrichedPool where
  pool : RawPool
  tvlUsd : JSNum
  apyBase : JSNum
  totalSupplyUsd : JSNum
  totalBorrowUsd : JSNum
  ltv : JSNum
  borrowApy : JSNum
  principalSymbol : String
  collateralSymbol : String
  principalTokenDecimals : Int
  collateralTokenDecimals : Int
  totalCollateralUsd : JSNum

/-- The enrichment of one pool: the body of the `dataNow.map` callback, given the
token info of the batch and the prices fetched for the pool. -/
def enrichPool (tokenInfo : TokenInfo) (pricesByAddress : PricesByAddress) (pool : RawPool) :
    EnrichedPool :=
  { pool := pool
    tvlUsd := tvlUsd tokenInfo pricesByAddress pool
    apyBase := apyBase pool
    totalSupplyUsd := totalSupplyUsd tokenInfo pricesByAddress pool
    totalBorrowUsd := totalBorrowUsd tokenInfo pricesByAddress pool
    ltv := ltv pool
    borrowApy := borrowApy pool
    principalSymbol := principalSymbol tokenInfo pool
    collateralSymbol := collateralSymbol tokenInfo pool
    principalTokenDecimals := principalTokenDecimals tokenInfo pool
    collateralTokenDecimals := collateralTokenDecimals tokenInfo pool
    totalCollateralUsd := totalCollateralUsd tokenInfo pricesByAddress pool }

/-! ## The projection and the driver (`topLvl`, `main`) -/

/-- One record of the output.  An attribute that a record does not carry is
`none` (the lending record has no `mintedCoin`, `totalSupplyUsd`,
`totalBorrowUsd` and `apyBaseBorrow`). -/
structure PositionRecord where
  pool : String
  chain : String
  project : String
  symbol : String
  mintedCoin : Option String
  tvlUsd : JSNum
  totalSupplyUsd : Option JSNum
  totalBorrowUsd : Option JSNum
  apyBaseBorrow : Option JSNum
  apyBase : JSNum
  underlyingTokens : List String
  url : String
  deriving DecidableEq

/-- The collaborators that the adaptor calls and that are not part of it.
`fetchPools chainString url timestamp` is `utils.getBlocks` followed by
`request`, giving `groupPoolMetrics`; `erc20info address chainString` is
`sdk.api.erc20.info`; `getPrices addresses chainString` is `utils.getPrices`,
giving `pricesByAddress`.  These three give `none` when the call throws.
`modifyEndpoint`, `formatChain` and `keepFinite` are
`sdk.graph.modifyEndpoint`, `utils.formatChain` and `utils.keepFinite`. -/
structure Collaborators where
  modifyEndpoint : String → String
  fetchPools : String → String → Option Nat → Option (List RawPool)
  erc20info : String → String → Option Erc20Output
  getPrices : List String → String → Option PricesByAddress
  formatChain : String → String
  keepFinite : PositionRecord → Bool

/-- The method `add` of a `Set`, the set kept in insertion order. -/
def setAdd (set : List String) (address : String) : List String :=
  if address ∈ set then set else set ++ [address]

/-- The unique token addresses of all pools, in the order `Array.from` lists
them. -/
def tokenAddresses (dataNow : List RawPool) : List String :=
  dataNow.foldl
    (fun set pool => setAdd (setAdd set pool.principal_token_address) pool.collateral_token_address)
    []

/-- The enrichment of all pools (`Promise.all` over `dataNow.map`): the prices
are fetched for each pool, and the whole fails when one fetch throws. -/
def enrichAll (env : Collaborators) (chainString : String) (tokenInfo : TokenInfo) :
    List RawPool → Option (List EnrichedPool)
  | [] => some []
  | pool :: rest =>
    match env.getPrices [pool.principal_token_address, pool.collateral_token_address]
        chainString with
    | none => none
    | some pricesByAddress =>
      match enrichAll env chainString tokenInfo rest with
      | none => none
      | some enriched => some (enrichPool tokenInfo pricesByAddress pool :: enriched)

def underlyingTokens (p : EnrichedPool) : List String :=
  [p.pool.principal_token_address, p.pool.collateral_token_address]

/-- The template string of the pool page. -/
def poolUrl (chainString : String) (p : EnrichedPool) : String :=
  "https://app.teller.org/" ++ chainString ++ "/lend/pool/" ++ p.pool.group_pool_address

def lendingPool (env : Collaborators) (chainString : String) (p : EnrichedPool) :
    PositionRecord :=
  { pool := p.pool.group_pool_address
    chain := env.formatChain chainString
    project := "teller"
    symbol := p.principalSymbol
    mintedCoin := none
    tvlUsd := p.totalSupplyUsd
    totalSupplyUsd := none
    totalBorrowUsd := none
    apyBaseBorrow := none
    apyBase := p.apyBase
    underlyingTokens := underlyingTokens p
    url := poolUrl chainString p }

def collateralPool (env : Collaborators) (chainString : String) (p : EnrichedPool) :
    PositionRecord :=
  { pool := p.pool.group_pool_address
    chain := env.formatChain chainString
    project := "teller"
    symbol := p.collateralSymbol
    mintedCoin := some p.principalSymbol
    tvlUsd := p.totalCollateralUsd
    totalSupplyUsd := some p.totalCollateralUsd
    totalBorrowUsd := some p.totalBorrowUsd
    apyBaseBorrow := some p.borrowApy
    apyBase := .fin 0
    underlyingTokens := underlyingTokens p
    url := poolUrl chainString p }

/-- The callback of `enrichedData.flatMap`: the lending and the collateral
record of one enriched pool.  (The local `chain` of the callback, which renames
`ethereum` to `mainnet`, is assigned and never read.) -/
def projectPool (env : Collaborators) (chainString : String) (p : EnrichedPool) :
    List PositionRecord :=
  [lendingPool env chainString p, collateralPool env chainString p]

/-- The function `topLvl`; `none` when it throws. -/
def topLvl (env : Collaborators) (chainString url : String) (timestamp : Option Nat) :
    Option (List PositionRecord) :=
  match env.fetchPools chainString url timestamp with
  | none => none
  | some dataNow =>
    let tokenInfo := fetchTokenInfo (fun address => env.erc20info address chainString)
      (tokenAddresses dataNow)
    match enrichAll env chainString tokenInfo dataNow with
    | none => none
    | some enrichedData => some (enrichedData.flatMap (projectPool env chainString))

/-- The supported chains and their subgraph endpoints. -/
def chains (env : Collaborators) : List (String × String) :=
  [("ethereum", env.modifyEndpoint "x6qJPkv7FaCWkfcjDWx12Z2NEfsvCCwuy87vQzk9zRh")]

/-- The loop of `main` over the entries of `chains`, extending `data`; a chain
whose `topLvl` throws is logged and skipped. -/
def mainLoop (env : Collaborators) (timestamp : Option Nat) :
    List (String × String) → List PositionRecord → List PositionRecord
  | [], data => data
  | (chain, url) :: rest, data =>
    match topLvl env chain url timestamp with
    | some chainData => mainLoop env timestamp rest (data ++ chainData)
    | none => mainLoop env timestamp rest data

/-- The function `main`. -/
def main (env : Collaborators) (timestamp : Option Nat) : List PositionRecord :=
  (mainLoop env timestamp (chains env) []).filter env.keepFinite

/-- Holds of an attribute that is absent or a finite number. -/
def finiteOrAbsent : Option JSNum → Bool
  | some x => x.isFinite
  | none => true

/-- Modelled from the spec: `utils.keepFinite`, the validity filter of `main`,
which is not among the sources.  The spec (4.4) has it drop any record that
contains a non-finite number (NaN or an infinity) in any numeric attribute. -/
def keepFinite (p : PositionRecord) : Bool :=
  p.tvlUsd.isFinite && p.apyBase.isFinite && finiteOrAbsent p.totalSupplyUsd
    && finiteOrAbsent p.totalBorrowUsd && finiteOrAbsent p.apyBaseBorrow

/-- Holds of a pool record all of whose eight counters read as integers. -/
def hasIntegerCounters (pool : RawPool) : Bool :=
  (parseInt pool.total_principal_tokens_committed).isSome
    && (parseInt pool.total_principal_tokens_withdrawn).isSome
    && (parseInt pool.total_principal_tokens_borrowed).isSome
    && (parseInt pool.total_interest_collected).isSome
    && (parseInt pool.token_difference_from_liquidations).isSome
    && (parseInt pool.total_principal_tokens_repaid).isSome
    && (parseInt pool.total_collateral_tokens_escrowed).isSome
    && (parseInt pool.total_collateral_withdrawn).isSome

/-- The branch-free yield curve for borrowers: (L + u * (U - L)) / 100. -/
def branchFreeBorrowerYield (u L U : JSNum) : JSNum :=
  JSNum.div (JSNum.add L (JSNum.mul u (JSNum.sub U L))) (.fin 100)

/-- The branch-free yield curve for lenders: ((L + u * (U - L)) / 100) * u. -/
def branchFreeLenderYield (u L U : JSNum) : JSNum :=
  JSNum.mul (JSNum.div (JSNum.add L (JSNum.mul u (JSNum.sub U L))) (.fin 100)) u

/-! ## Sample inputs -/

/-- A pool record with the given counters and bounds, on fixed addresses. -/
def samplePool (committed withdrawn borrowed interest liquidations repaid escrowed
    collateralWithdrawn upper lower ratio : Option String) : RawPool :=
  { id := "1"
    group_pool_address := "0xpool"
    principal_token_address := "0xAAA"
    collateral_token_address := "0xBBB"
    shares_token_address := "0xshares"
    market_id := some "1"
    total_principal_tokens_committed := committed
    total_principal_tokens_withdrawn := withdrawn
    total_principal_tokens_borrowed := borrowed
    total_interest_collected := interest
    token_difference_from_liquidations := liquidations
    total_principal_tokens_repaid := repaid
    total_collateral_tokens_escrowed := escrowed
    total_collateral_withdrawn := collateralWithdrawn
    interest_rate_upper_bound := upper
    interest_rate_lower_bound := lower
    liquidity_threshold_percent := some "0"
    collateral_ratio := ratio }

/-- The pool of the worked example: committed 1000, borrowed 400, the other
counters 0, bounds 500 and 1500, collateral ratio 150. -/
def examplePool : RawPool :=
  samplePool (some "1000") (some "0") (some "400") (some "0") (some "0") (some "0")
    (some "0") (some "0") (some "1500") (some "500") (some "150")

/-- A pool with 1000 tokens of 18 decimals committed (10^21 units) and half of
them borrowed. -/
def largePool : RawPool :=
  samplePool (some "1000000000000000000000") (some "0") (some "500000000000000000000")
    (some "0") (some "0") (some "0") (some "0") (some "0") (some "1500") (some "500")
    (some "150")

/-- Token info that knows both sample tokens: 18 decimals for the principal
token and 8 for the collateral token. -/
def sampleTokenInfo : TokenInfo := fun key =>
  if key = "0xaaa" then some { symbol := "DAI", decimals := 18 }
  else if key = "0xbbb" then some { symbol := "WBTC", decimals := 8 }
  else none

/-- Prices of the two sample tokens: 1 and 60000. -/
def samplePrices : PricesByAddress := fun key =>
  if key = "0xaaa" then some 1 else if key = "0xbbb" then some 60000 else none

/-- Token info whose entry for the principal sample token records 0 decimals. -/
def zeroDecimalsTokenInfo : TokenInfo := fun key =>
  if key = "0xaaa" then some { symbol := "NFT", decimals := 0 } else none

/-- A pool whose counters are skewed: more was borrowed than was committed. -/
def skewedPool : RawPool :=
  samplePool (some "400") (some "0") (some "1000") (some "0") (some "0") (some "0")
    (some "0") (some "0") (some "1500") (some "500") (some "150")

/-- A pool whose lower bound reads 700 and whose upper bound is missing. -/
def lowerOnlyPool : RawPool :=
  samplePool (some "1000") (some "0") (some "400") (some "0") (some "0") (some "0")
    (some "0") (some "0") none (some "700") (some "200")

/-- A pool whose lower bound reads 0 and whose upper bound is not a number. -/
def badBoundsPool : RawPool :=
  samplePool (some "1000") (some "0") (some "400") (some "0") (some "0") (some "0")
    (some "0") (some "0") (some "n/a") (some "0") (some "200")

/-- The prices fetched for a pool, or the empty object when the fetch throws. -/
def pricesFor (env : Collaborators) (chainString : String) (pool : RawPool) : PricesByAddress :=
  match env.getPrices [pool.principal_token_address, pool.collateral_token_address]
      chainString with
  | some pricesByAddress => pricesByAddress
  | none => fun _ => none

/-- Collaborators all of whose calls succeed: every chain holds the given pools,
no token is known on chain and no price is known. -/
def sampleEnv (pools : List RawPool) : Collaborators :=
  { modifyEndpoint := fun id => "https://gateway/" ++ id
    fetchPools := fun _ _ _ => some pools
    erc20info := fun _ _ => none
    getPrices := fun _ _ => some (fun _ => none)
    formatChain := fun chainString => chainString
    keepFinite := keepFinite }

/-- Collaborators whose subgraph request throws on every chain. -/
def failingEnv : Collaborators :=
  { modifyEndpoint := fun id => "https://gateway/" ++ id
    fetchPools := fun _ _ _ => none
    erc20info := fun _ _ => none
    getPrices := fun _ _ => some (fun _ => none)
    formatChain := fun chainString => chainString
    keepFinite := keepFinite }

/-- Collaborators whose subgraph request throws on `ethereum` and gives the pool
of the worked example on every other chain. -/
def partlyFailingEnv : Collaborators :=
  { modifyEndpoint := fun id => "https://gateway/" ++ id
    fetchPools := fun chainString _ _ => if chainString = "ethereum" then none else some [examplePool]
    erc20info := fun _ _ => none
    getPrices := fun _ _ => some (fun _ => none)
    formatChain := fun chainString => chainString
    keepFinite := keepFinite }

/-- A pool whose committed counter is missing. -/
def nanPool : RawPool :=
  samplePool none (some "0") (some "400") (some "0") (some "0") (some "0")
    (some "0") (some "0") (some "1500") (some "500") (some "150")

/-- The records that one chain contributes to `data`: those of `topLvl`, or
none when it throws. -/
def recordsOf (env : Collaborators) (timestamp : Option Nat) (entry : String × String) :
    List PositionRecord :=
  match topLvl env entry.1 entry.2 timestamp with
  | some chainData => chainData
  | none => []

/-- A pool with 10^21 units committed and half of them borrowed, whose bounds
are its own: 400 and 2000. -/
def largeOwnBoundsPool : RawPool :=
  samplePool (some "1000000000000000000000") (some "0") (some "500000000000000000000")
    (some "0") (some "0") (some "0") (some "0") (some "0") (some "2000") (some "400")
    (some "150")

/-- Outcomes of `sdk.api.erc20.info`: the first sample token has 6 decimals, the
second has 0 decimals on chain, and the call throws for any other address. -/
def sampleErc20 : String → Option Erc20Output := fun address =>
  if address = "0xAAA" then some { symbol := "USDC", decimals := some "6" }
  else if address = "0xBBB" then some { symbol := "NFT", decimals := some "0" }
  else none

/-! ## Auxiliary facts -/

theorem parseIntOfNumber_eq_self (n : Int) (h : n.natAbs < 10 ^ 21) :
    parseIntOfNumber (some n) = some n := by
  show (if n.natAbs < 10 ^ 21 then some n
    else if n < 0 then some (-(leadingDigit n.natAbs : Int))
    else some (leadingDigit n.natAbs : Int)) = some n
  rw [if_pos h]

theorem parseIntOfNumber_isSome (n : Int) : ∃ m, parseIntOfNumber (some n) = some m := by
  show ∃ m, (if n.natAbs < 10 ^ 21 then some n
    else if n < 0 then some (-(leadingDigit n.natAbs : Int))
    else some (leadingDigit n.natAbs : Int)) = some m
  split_ifs
  · exact ⟨_, rfl⟩
  · exact ⟨_, rfl⟩
  · exact ⟨_, rfl⟩

theorem clamp_fin (q : ℚ) :
    JSNum.min (JSNum.max (.fin q) (.fin 0)) (.fin 1) = .fin (min (max q 0) 1) := by
  by_cases h0 : q ≤ 0
  · have h1 : (0 : ℚ) ≤ 1 := by norm_num
    simp [JSNum.max, JSNum.min, JSNum.le, h0]
  · by_cases h1 : q ≤ 1
    · have h2 : 0 ≤ q := le_of_lt (not_le.mp h0)
      simp [JSNum.max, JSNum.min, JSNum.le, h0, h1, h2]
    · have h2 : 0 ≤ q := le_of_lt (not_le.mp h0)
      have h3 : 1 ≤ q := le_of_lt (not_le.mp h1)
      simp [JSNum.max, JSNum.min, JSNum.le, h0, h1, h2, h3]

theorem div_fin_int (b c : Int) (hc : c ≠ 0) :
    JSNum.div (JSNum.ofInt (some b)) (JSNum.ofInt (some c)) = .fin ((b : ℚ) / (c : ℚ)) := by
  have h : (c : ℚ) ≠ 0 := by exact_mod_cast hc
  simp [JSNum.div, JSNum.ofInt, h]

theorem parseInt_sample_values :
    parseInt (some "0") = some 0 ∧ parseInt (some "400") = some 400 ∧
    parseInt (some "1000") = some 1000 ∧ parseInt (some "500") = some 500 ∧
    parseInt (some "1500") = some 1500 ∧ parseInt (some "150") = some 150 ∧
    parseInt (some "200") = some 200 ∧ parseInt (some "100") = some 100 ∧
    parseInt (some "1000000000000000000000") = some (10 ^ 21) ∧
    parseInt (some "500000000000000000000") = some (5 * 10 ^ 20) := by
  decide

/-- The lender yield on finite arguments. -/
theorem lenderYield_fin (u L U : ℚ) :
    calculateActiveLenderYield (.fin u) (.fin L) (.fin U) =
      .fin ((if u = 0 then L else if u = 1 then U else L + u * (U - L)) / 100 * u) := by
  by_cases h0 : u = 0
  · simp [calculateActiveLenderYield, JSNum.strictEq, JSNum.div, JSNum.mul, h0]
  · by_cases h1 : u = 1
    · simp [calculateActiveLenderYield, JSNum.strictEq, JSNum.div, JSNum.mul, h1]
    · simp [calculateActiveLenderYield, JSNum.strictEq, JSNum.div, JSNum.mul, JSNum.add,
        JSNum.sub, JSNum.neg, h0, h1, sub_eq_add_neg]

/-- The borrower yield on finite arguments. -/
theorem borrowerYield_fin (u L U : ℚ) :
    calculateActiveBorrowerYield (.fin u) (.fin L) (.fin U) =
      .fin ((if u = 0 then L else if u = 1 then U else L + u * (U - L)) / 100) := by
  by_cases h0 : u = 0
  · simp [calculateActiveBorrowerYield, JSNum.strictEq, JSNum.div, h0]
  · by_cases h1 : u = 1
    · simp [calculateActiveBorrowerYield, JSNum.strictEq, JSNum.div, h1]
    · simp [calculateActiveBorrowerYield, JSNum.strictEq, JSNum.div, JSNum.mul, JSNum.add,
        JSNum.sub, JSNum.neg, h0, h1, sub_eq_add_neg]

/-- The net sums of the large pool, and what `parseInt` reads of them. -/
theorem largePool_values :
    totalTokensActivelyCommitted largePool = some (10 ^ 21) ∧
    totalTokensActivelyBorrowed largePool = some (5 * 10 ^ 20) ∧
    totalCommitted largePool = some 1 ∧
    totalBorrowed largePool = some (5 * 10 ^ 20) := by
  obtain ⟨h0, -, -, -, -, -, -, -, hc, hb⟩ := parseInt_sample_values
  have e1 : totalTokensActivelyCommitted largePool = some (10 ^ 21) := by
    simp [totalTokensActivelyCommitted, totalInterestCollected, tokenDifferenceFromLiquidatons,
      largePool, samplePool, h0, hc, intAdd, intSub]
  have e2 : totalTokensActivelyBorrowed largePool = some (5 * 10 ^ 20) := by
    simp [totalTokensActivelyBorrowed, largePool, samplePool, h0, hb, intSub]
  have e3 : totalCommitted largePool = some 1 := by
    rw [totalCommitted, e1]
    simp [parseIntOfNumber, leadingDigit]
  have e4 : totalBorrowed largePool = some (5 * 10 ^ 20) := by
    rw [totalBorrowed, e2]
    exact parseIntOfNumber_eq_self _ (by norm_num)
  exact ⟨e1, e2, e3, e4⟩

/-- Below 10^21 in magnitude the utilization is the clamped quotient of the net
borrowed by the net committed principal (in exact arithmetic: see
`parseIntOfNumber` for sums within a rounding error of 10^21). -/
theorem poolBorrowedPercent_of_small (pool : RawPool) (b c : Int)
    (hb : totalTokensActivelyBorrowed pool = some b)
    (hc : totalTokensActivelyCommitted pool = some c)
    (hbs : b.natAbs < 10 ^ 21) (hcs : c.natAbs < 10 ^ 21) (hpos : 0 < c) :
    poolBorrowedPercent pool = .fin (min (max ((b : ℚ) / (c : ℚ)) 0) 1) := by
  have hc0 : c ≠ 0 := ne_of_gt hpos
  unfold poolBorrowedPercent totalCommitted totalBorrowed
  rw [hb, hc, parseIntOfNumber_eq_self b hbs, parseIntOfNumber_eq_self c hcs,
    div_fin_int b c hc0, clamp_fin]
  simp [intGtZero, hpos]

/-- When the net committed principal is an integer that is not positive, or is
NaN, the utilization is 0. -/
theorem poolBorrowedPercent_of_not_pos (pool : RawPool)
    (h : ∀ c, totalCommitted pool = some c → c ≤ 0) :
    poolBorrowedPercent pool = .fin 0 := by
  unfold poolBorrowedPercent
  cases hc : totalCommitted pool with
  | none => simp [intGtZero]
  | some c =>
    have := h c hc
    simp [intGtZero, not_lt.mpr this]

/-! ## Utilization -/

/-- C1, evaluated at a pool with 10^21 units committed and 5 * 10^20 borrowed:
the net committed principal is 10^21 and the net borrowed principal is half of
it, so the clamped quotient is 1/2; but `parseInt` reads the committed sum,
rendered `1e+21`, as 1, and the utilization used by the enrichment is 1. -/
theorem poolBorrowedPercent_largePool :
    totalTokensActivelyCommitted largePool = some (10 ^ 21) ∧
    totalTokensActivelyBorrowed largePool = some (5 * 10 ^ 20) ∧
    JSNum.min (JSNum.max (JSNum.div (JSNum.ofInt (totalTokensActivelyBorrowed largePool))
      (JSNum.ofInt (totalTokensActivelyCommitted largePool))) (.fin 0)) (.fin 1) = .fin (1 / 2) ∧
    totalCommitted largePool = some 1 ∧
    totalBorrowed largePool = some (5 * 10 ^ 20) ∧
    poolBorrowedPercent largePool = .fin 1 := by
  obtain ⟨e1, e2, e3, e4⟩ := largePool_values
  refine ⟨e1, e2, ?_, e3, e4, ?_⟩
  · rw [e1, e2, div_fin_int _ _ (by norm_num), clamp_fin]
    norm_num
  · unfold poolBorrowedPercent
    rw [e3, e4, div_fin_int _ _ (by norm_num), clamp_fin]
    norm_num [intGtZero]

/-- C2: whenever the borrowed and repaid counters are integers, the utilization
computed by the enrichment is a finite number of the interval [0, 1], whatever
the other counters are (missing, skewed, zero or negative net committed). -/
theorem poolBorrowedPercent_mem_unit (pool : RawPool) (b r : Int)
    (hb : parseInt pool.total_principal_tokens_borrowed = some b)
    (hr : parseInt pool.total_principal_tokens_repaid = some r) :
    ∃ q : ℚ, poolBorrowedPercent pool = .fin q ∧ 0 ≤ q ∧ q ≤ 1 := by
  unfold poolBorrowedPercent
  cases hc : totalCommitted pool with
  | none => exact ⟨0, by simp [intGtZero], le_refl _, by norm_num⟩
  | some c =>
    by_cases hpos : 0 < c
    · have hc0 : c ≠ 0 := ne_of_gt hpos
      have hbn : totalTokensActivelyBorrowed pool = some (b - r) := by
        simp [totalTokensActivelyBorrowed, hb, hr, intSub]
      obtain ⟨x, hx⟩ := parseIntOfNumber_isSome (b - r)
      have hbx : totalBorrowed pool = some x := by
        rw [totalBorrowed, hbn, hx]
      refine ⟨min (max ((x : ℚ) / (c : ℚ)) 0) 1, ?_, ?_, ?_⟩
      · rw [hbx, div_fin_int x c hc0, clamp_fin]
        simp [intGtZero, hpos]
      · exact le_min (le_max_right _ _) (by norm_num)
      · exact min_le_right _ _
    · exact ⟨0, by simp [intGtZero, hpos], le_refl _, by norm_num⟩

theorem poolBorrowedPercent_mem_unit_witness :
    parseInt skewedPool.total_principal_tokens_borrowed = some 1000 ∧
    parseInt skewedPool.total_principal_tokens_repaid = some 0 ∧
    ∃ q : ℚ, poolBorrowedPercent skewedPool = .fin q ∧ 0 ≤ q ∧ q ≤ 1 :=
  ⟨by decide, by decide, poolBorrowedPercent_mem_unit skewedPool 1000 0 (by decide) (by decide)⟩

/-! ## The yield curve -/

/-- C3: for rational utilization u and bounds L, U, the lender yield is
(r / 100) * u with r = L at u = 0, r = U at u = 1 and r = L + u * (U - L)
otherwise; it is exactly 0 at u = 0 and exactly U / 100 at u = 1.  (The
restriction of u to [0, 1] is not needed.) -/
theorem calculateActiveLenderYield_eq (u L U : ℚ) :
    calculateActiveLenderYield (.fin u) (.fin L) (.fin U) =
      .fin ((if u = 0 then L else if u = 1 then U else L + u * (U - L)) / 100 * u) ∧
    calculateActiveLenderYield (.fin 0) (.fin L) (.fin U) = .fin 0 ∧
    calculateActiveLenderYield (.fin 1) (.fin L) (.fin U) = .fin (U / 100) := by
  refine ⟨lenderYield_fin u L U, ?_, ?_⟩
  · simp [calculateActiveLenderYield, JSNum.strictEq, JSNum.div, JSNum.mul]
  · simp [calculateActiveLenderYield, JSNum.strictEq, JSNum.div, JSNum.mul]

/-- C4: for rational utilization u and bounds L, U, the borrower yield is
r / 100 with r = L at u = 0, r = U at u = 1 and r = L + u * (U - L) otherwise;
it is L / 100 at u = 0 and U / 100 at u = 1, with no scaling by u.  (The
restriction of u to [0, 1] is not needed.) -/
theorem calculateActiveBorrowerYield_eq (u L U : ℚ) :
    calculateActiveBorrowerYield (.fin u) (.fin L) (.fin U) =
      .fin ((if u = 0 then L else if u = 1 then U else L + u * (U - L)) / 100) ∧
    calculateActiveBorrowerYield (.fin 0) (.fin L) (.fin U) = .fin (L / 100) ∧
    calculateActiveBorrowerYield (.fin 1) (.fin L) (.fin U) = .fin (U / 100) := by
  refine ⟨borrowerYield_fin u L U, ?_, ?_⟩
  · simp [calculateActiveBorrowerYield, JSNum.strictEq, JSNum.div]
  · simp [calculateActiveBorrowerYield, JSNum.strictEq, JSNum.div]

/-- C5 as stated fails: with equal bounds L = U = 1000 the borrower yield is 10
at u = 1/4 and at u = 1/2, so it does not increase strictly; and with the lower
bound above the upper bound, L = 1500 and U = 500, it decreases, from 25/2 at
u = 1/4 to 10 at u = 1/2. -/
theorem calculateActiveBorrowerYield_not_strictMono :
    (¬ ∀ L U u1 u2 : ℚ, 0 < u1 → u1 < u2 → u2 < 1 →
      ∃ y1 y2 : ℚ, calculateActiveBorrowerYield (.fin u1) (.fin L) (.fin U) = .fin y1 ∧
        calculateActiveBorrowerYield (.fin u2) (.fin L) (.fin U) = .fin y2 ∧ y1 < y2) ∧
    calculateActiveBorrowerYield (.fin (1 / 4)) (.fin 1500) (.fin 500) = .fin (25 / 2) ∧
    calculateActiveBorrowerYield (.fin (1 / 2)) (.fin 1500) (.fin 500) = .fin 10 := by
  refine ⟨?_, ?_, ?_⟩
  rotate_left
  · rw [borrowerYield_fin]
    norm_num
  · rw [borrowerYield_fin]
    norm_num
  intro h
  obtain ⟨y1, y2, h1, h2, hlt⟩ :=
    h 1000 1000 (1 / 4) (1 / 2) (by norm_num) (by norm_num) (by norm_num)
  rw [borrowerYield_fin (1 / 4) 1000 1000] at h1
  rw [borrowerYield_fin (1 / 2) 1000 1000] at h2
  have e1 := JSNum.fin.inj h1
  have e2 := JSNum.fin.inj h2
  norm_num at e1 e2
  rw [← e1, ← e2] at hlt
  exact lt_irrefl _ hlt

/-- C5, amended: when the lower bound does not exceed the upper bound, the
borrower yield does not decrease with the utilization on the open interval
(0, 1): for u1 < u2 the yield at u1 is at most the yield at u2.  (Only the
non-strict order is stated: it is the order that survives the rounding of
floating point, which this development does not model.) -/
theorem calculateActiveBorrowerYield_mono (L U u1 u2 : ℚ) (hLU : L ≤ U)
    (h0 : 0 < u1) (h12 : u1 < u2) (h1 : u2 < 1) :
    ∃ y1 y2 : ℚ, calculateActiveBorrowerYield (.fin u1) (.fin L) (.fin U) = .fin y1 ∧
      calculateActiveBorrowerYield (.fin u2) (.fin L) (.fin U) = .fin y2 ∧ y1 ≤ y2 ∧
      JSNum.le (calculateActiveBorrowerYield (.fin u1) (.fin L) (.fin U))
        (calculateActiveBorrowerYield (.fin u2) (.fin L) (.fin U)) = true := by
  have hu1 : u1 ≠ 0 := ne_of_gt h0
  have hu1b : u1 ≠ 1 := ne_of_lt (lt_trans h12 h1)
  have hu2 : u2 ≠ 0 := ne_of_gt (lt_trans h0 h12)
  have hu2b : u2 ≠ 1 := ne_of_lt h1
  have e1 : calculateActiveBorrowerYield (.fin u1) (.fin L) (.fin U)
      = .fin ((L + u1 * (U - L)) / 100) := by
    rw [borrowerYield_fin u1 L U]
    simp [hu1, hu1b]
  have e2 : calculateActiveBorrowerYield (.fin u2) (.fin L) (.fin U)
      = .fin ((L + u2 * (U - L)) / 100) := by
    rw [borrowerYield_fin u2 L U]
    simp [hu2, hu2b]
  have hle : (L + u1 * (U - L)) / 100 ≤ (L + u2 * (U - L)) / 100 := by
    have hr : 0 ≤ U - L := sub_nonneg.mpr hLU
    have hm : u1 * (U - L) ≤ u2 * (U - L) := mul_le_mul_of_nonneg_right (le_of_lt h12) hr
    exact div_le_div_of_nonneg_right (by linarith) (by norm_num)
  refine ⟨_, _, e1, e2, hle, ?_⟩
  rw [e1, e2]
  simp [JSNum.le, hle]

theorem calculateActiveBorrowerYield_mono_witness :
    (500 : ℚ) ≤ 1500 ∧ (0 : ℚ) < 1 / 4 ∧ (1 / 4 : ℚ) < 1 / 2 ∧ (1 / 2 : ℚ) < 1 ∧
    ∃ y1 y2 : ℚ, calculateActiveBorrowerYield (.fin (1 / 4)) (.fin 500) (.fin 1500) = .fin y1 ∧
      calculateActiveBorrowerYield (.fin (1 / 2)) (.fin 500) (.fin 1500) = .fin y2 ∧ y1 ≤ y2 ∧
      JSNum.le (calculateActiveBorrowerYield (.fin (1 / 4)) (.fin 500) (.fin 1500))
        (calculateActiveBorrowerYield (.fin (1 / 2)) (.fin 500) (.fin 1500)) = true :=
  ⟨by norm_num, by norm_num, by norm_num, by norm_num,
    calculateActiveBorrowerYield_mono 500 1500 (1 / 4) (1 / 2)
      (by norm_num) (by norm_num) (by norm_num) (by norm_num)⟩

/-! ## The enriched record -/

/-- The utilization and the bounds of the worked example. -/
theorem examplePool_values :
    poolBorrowedPercent examplePool = .fin (2 / 5) ∧
    interestRateLowerBound examplePool = 500 ∧
    interestRateUpperBound examplePool = 1500 := by
  obtain ⟨h0, h400, h1000, h500, h1500, -⟩ := parseInt_sample_values
  have hb : totalTokensActivelyBorrowed examplePool = some 400 := by
    simp [totalTokensActivelyBorrowed, examplePool, samplePool, h0, h400, intSub]
  have hc : totalTokensActivelyCommitted examplePool = some 1000 := by
    simp [totalTokensActivelyCommitted, totalInterestCollected, tokenDifferenceFromLiquidatons,
      examplePool, samplePool, h0, h1000, intAdd, intSub]
  refine ⟨?_, ?_, ?_⟩
  · rw [poolBorrowedPercent_of_small examplePool 400 1000 hb hc (by norm_num) (by norm_num)
      (by norm_num)]
    norm_num
  · simp [interestRateLowerBound, parseIntOr, examplePool, samplePool, h500]
  · simp [interestRateUpperBound, parseIntOr, examplePool, samplePool, h1500]

/-- While `parseInt` leaves the net sums unchanged (both below 10^21 in
magnitude), the enriched apyBase and borrowApy are the two yield functions at
the clamped quotient of the net borrowed by the net committed principal and at
the bounds read from the pool, when these are non-zero integers (in exact
arithmetic: see `parseIntOfNumber` for sums within a rounding error of 10^21). -/
theorem enrichPool_yields_of_small (tokenInfo : TokenInfo) (pricesByAddress : PricesByAddress)
    (pool : RawPool) (b c lo up : Int)
    (hb : totalTokensActivelyBorrowed pool = some b)
    (hc : totalTokensActivelyCommitted pool = some c)
    (hbs : b.natAbs < 10 ^ 21) (hcs : c.natAbs < 10 ^ 21) (hpos : 0 < c)
    (hlo : parseInt pool.interest_rate_lower_bound = some lo) (hlo0 : lo ≠ 0)
    (hup : parseInt pool.interest_rate_upper_bound = some up) (hup0 : up ≠ 0) :
    (enrichPool tokenInfo pricesByAddress pool).apyBase =
      calculateActiveLenderYield (.fin (min (max ((b : ℚ) / (c : ℚ)) 0) 1))
        (.fin (lo : ℚ)) (.fin (up : ℚ)) ∧
    (enrichPool tokenInfo pricesByAddress pool).borrowApy =
      calculateActiveBorrowerYield (.fin (min (max ((b : ℚ) / (c : ℚ)) 0) 1))
        (.fin (lo : ℚ)) (.fin (up : ℚ)) := by
  have hl : interestRateLowerBound pool = lo := by
    simp [interestRateLowerBound, parseIntOr, hlo, hlo0]
  have hu : interestRateUpperBound pool = up := by
    simp [interestRateUpperBound, parseIntOr, hup, hup0]
  constructor
  · show apyBase pool = _
    unfold apyBase
    rw [poolBorrowedPercent_of_small pool b c hb hc hbs hcs hpos, hl, hu]
  · show borrowApy pool = _
    unfold borrowApy
    rw [poolBorrowedPercent_of_small pool b c hb hc hbs hcs hpos, hl, hu]

/-- The worked example: for committed 1000, borrowed 400, the other counters 0
and bounds 500 and 1500 the utilization is 2/5, the enriched apyBase is 18/5
(3.6) and the enriched borrowApy is 9. -/
theorem enrichPool_yields_examplePool (tokenInfo : TokenInfo)
    (pricesByAddress : PricesByAddress) :
    poolBorrowedPercent examplePool = .fin (2 / 5) ∧
    (enrichPool tokenInfo pricesByAddress examplePool).apyBase = .fin (18 / 5) ∧
    (enrichPool tokenInfo pricesByAddress examplePool).borrowApy = .fin 9 := by
  obtain ⟨hu, hl, hup⟩ := examplePool_values
  refine ⟨hu, ?_, ?_⟩
  · show calculateActiveLenderYield (poolBorrowedPercent examplePool)
      (.fin (interestRateLowerBound examplePool)) (.fin (interestRateUpperBound examplePool)) = _
    rw [hu, hl, hup]
    have h := lenderYield_fin (2 / 5) 500 1500
    norm_num at h
    simpa using h
  · show calculateActiveBorrowerYield (poolBorrowedPercent examplePool)
      (.fin (interestRateLowerBound examplePool)) (.fin (interestRateUpperBound examplePool)) = _
    rw [hu, hl, hup]
    have h := borrowerYield_fin (2 / 5) 500 1500
    norm_num at h
    simpa using h

/-- The net sums and the bounds of the large pool with its own bounds, and what
`parseInt` reads of the sums. -/
theorem largeOwnBoundsPool_values :
    totalTokensActivelyCommitted largeOwnBoundsPool = some (10 ^ 21) ∧
    totalTokensActivelyBorrowed largeOwnBoundsPool = some (5 * 10 ^ 20) ∧
    totalCommitted largeOwnBoundsPool = some 1 ∧
    totalBorrowed largeOwnBoundsPool = some (5 * 10 ^ 20) ∧
    interestRateLowerBound largeOwnBoundsPool = 400 ∧
    interestRateUpperBound largeOwnBoundsPool = 2000 := by
  obtain ⟨h0, h400, -, -, -, -, -, -, hc, hb⟩ := parseInt_sample_values
  have h2000 : parseInt (some "2000") = some 2000 := by decide
  have e1 : totalTokensActivelyCommitted largeOwnBoundsPool = some (10 ^ 21) := by
    simp [totalTokensActivelyCommitted, totalInterestCollected, tokenDifferenceFromLiquidatons,
      largeOwnBoundsPool, samplePool, h0, hc, intAdd, intSub]
  have e2 : totalTokensActivelyBorrowed largeOwnBoundsPool = some (5 * 10 ^ 20) := by
    simp [totalTokensActivelyBorrowed, largeOwnBoundsPool, samplePool, h0, hb, intSub]
  have e3 : totalCommitted largeOwnBoundsPool = some 1 := by
    rw [totalCommitted, e1]
    simp [parseIntOfNumber, leadingDigit]
  have e4 : totalBorrowed largeOwnBoundsPool = some (5 * 10 ^ 20) := by
    rw [totalBorrowed, e2]
    exact parseIntOfNumber_eq_self _ (by norm_num)
  refine ⟨e1, e2, e3, e4, ?_, ?_⟩
  · simp [interestRateLowerBound, parseIntOr, largeOwnBoundsPool, samplePool, h400]
  · simp [interestRateUpperBound, parseIntOr, largeOwnBoundsPool, samplePool, h2000]

/-- C6, evaluated at a pool with 10^21 units committed, 5 * 10^20 borrowed and
the bounds 400 and 2000: the clamped quotient of the net borrowed by the net
committed principal is 1/2, at which the lender yield is 6 and the borrower
yield is 12 for the bounds of the pool; but `parseInt` reads the committed sum,
rendered `1e+21`, as 1, the enrichment uses the utilization 1, and the enriched
apyBase and borrowApy are both 20. -/
theorem enrichPool_yields_largeOwnBoundsPool (tokenInfo : TokenInfo)
    (pricesByAddress : PricesByAddress) :
    JSNum.min (JSNum.max (JSNum.div
        (JSNum.ofInt (totalTokensActivelyBorrowed largeOwnBoundsPool))
        (JSNum.ofInt (totalTokensActivelyCommitted largeOwnBoundsPool))) (.fin 0)) (.fin 1)
      = .fin (1 / 2) ∧
    interestRateLowerBound largeOwnBoundsPool = 400 ∧
    interestRateUpperBound largeOwnBoundsPool = 2000 ∧
    calculateActiveLenderYield (.fin (1 / 2)) (.fin (interestRateLowerBound largeOwnBoundsPool))
      (.fin (interestRateUpperBound largeOwnBoundsPool)) = .fin 6 ∧
    calculateActiveBorrowerYield (.fin (1 / 2))
      (.fin (interestRateLowerBound largeOwnBoundsPool))
      (.fin (interestRateUpperBound largeOwnBoundsPool)) = .fin 12 ∧
    poolBorrowedPercent largeOwnBoundsPool = .fin 1 ∧
    (enrichPool tokenInfo pricesByAddress largeOwnBoundsPool).apyBase = .fin 20 ∧
    (enrichPool tokenInfo pricesByAddress largeOwnBoundsPool).borrowApy = .fin 20 := by
  obtain ⟨e1, e2, e3, e4, hl, hu⟩ := largeOwnBoundsPool_values
  have hp : poolBorrowedPercent largeOwnBoundsPool = .fin 1 := by
    unfold poolBorrowedPercent
    rw [e3, e4, div_fin_int _ _ (by norm_num), clamp_fin]
    norm_num [intGtZero]
  refine ⟨?_, hl, hu, ?_, ?_, hp, ?_, ?_⟩
  · rw [e1, e2, div_fin_int _ _ (by norm_num), clamp_fin]
    norm_num
  · rw [hl, hu]
    have h := lenderYield_fin (1 / 2) 400 2000
    norm_num at h
    simpa using h
  · rw [hl, hu]
    have h := borrowerYield_fin (1 / 2) 400 2000
    norm_num at h
    simpa using h
  · show calculateActiveLenderYield (poolBorrowedPercent largeOwnBoundsPool)
      (.fin (interestRateLowerBound largeOwnBoundsPool))
      (.fin (interestRateUpperBound largeOwnBoundsPool)) = _
    rw [hp, hl, hu]
    have h := lenderYield_fin 1 400 2000
    norm_num at h
    simpa using h
  · show calculateActiveBorrowerYield (poolBorrowedPercent largeOwnBoundsPool)
      (.fin (interestRateLowerBound largeOwnBoundsPool))
      (.fin (interestRateUpperBound largeOwnBoundsPool)) = _
    rw [hp, hl, hu]
    have h := borrowerYield_fin 1 400 2000
    norm_num at h
    simpa using h

/-- C7: the effective lower bound is the value that `parseInt` reads from
interest_rate_lower_bound when that is a non-zero integer, and 500 when the
field is missing or not numeric (NaN) or reads 0; likewise the effective upper
bound, with default 1500. -/
theorem interestRateBounds_default (pool : RawPool) :
    (∀ n : Int, parseInt pool.interest_rate_lower_bound = some n → n ≠ 0 →
      interestRateLowerBound pool = n) ∧
    (parseInt pool.interest_rate_lower_bound = none ∨
      parseInt pool.interest_rate_lower_bound = some 0 → interestRateLowerBound pool = 500) ∧
    (∀ n : Int, parseInt pool.interest_rate_upper_bound = some n → n ≠ 0 →
      interestRateUpperBound pool = n) ∧
    (parseInt pool.interest_rate_upper_bound = none ∨
      parseInt pool.interest_rate_upper_bound = some 0 → interestRateUpperBound pool = 1500) := by
  refine ⟨?_, ?_, ?_, ?_⟩
  · intro n hn h0
    simp [interestRateLowerBound, parseIntOr, hn, h0]
  · intro h
    rcases h with h | h <;> simp [interestRateLowerBound, parseIntOr, h]
  · intro n hn h0
    simp [interestRateUpperBound, parseIntOr, hn, h0]
  · intro h
    rcases h with h | h <;> simp [interestRateUpperBound, parseIntOr, h]

theorem interestRateBounds_default_witness :
    (parseInt lowerOnlyPool.interest_rate_lower_bound = some 700 ∧
      interestRateLowerBound lowerOnlyPool = 700) ∧
    (parseInt lowerOnlyPool.interest_rate_upper_bound = none ∧
      interestRateUpperBound lowerOnlyPool = 1500) ∧
    (parseInt badBoundsPool.interest_rate_lower_bound = some 0 ∧
      interestRateLowerBound badBoundsPool = 500) ∧
    (parseInt badBoundsPool.interest_rate_upper_bound = none ∧
      interestRateUpperBound badBoundsPool = 1500) :=
  ⟨⟨by decide, (interestRateBounds_default lowerOnlyPool).1 700 (by decide) (by decide)⟩,
    ⟨by decide, (interestRateBounds_default lowerOnlyPool).2.2.2 (Or.inl (by decide))⟩,
    ⟨by decide, (interestRateBounds_default badBoundsPool).2.1 (Or.inr (by decide))⟩,
    ⟨by decide, (interestRateBounds_default badBoundsPool).2.2.2 (Or.inl (by decide))⟩⟩

/-! ## Decimals -/

theorem parseIntOr_ne_zero (x : Option String) (d : Int) (hd : d ≠ 0) : parseIntOr x d ≠ 0 := by
  unfold parseIntOr
  cases parseInt x with
  | none => exact hd
  | some n =>
    by_cases h : n = 0
    · simp [h, hd]
    · simp [h]

/-- No entry written by `fetchTokenInfo` records 0 decimals. -/
theorem fetchTokenInfoLoop_decimals_ne_zero (erc20info : String → Option Erc20Output)
    (tokenAddresses : List String) :
    ∀ tokens : TokenInfo, (∀ key entry, tokens key = some entry → entry.decimals ≠ 0) →
      ∀ key entry, fetchTokenInfoLoop erc20info tokenAddresses tokens key = some entry →
        entry.decimals ≠ 0 := by
  induction tokenAddresses with
  | nil => intro tokens h key entry hk; exact h key entry hk
  | cons address rest ih =>
    intro tokens h key entry hk
    refine ih _ ?_ key entry hk
    intro key2 entry2 h2
    by_cases hkey : key2 = (toLowerCase address)
    · simp only [hkey, if_true, Option.some.injEq] at h2
      rw [← h2]
      cases erc20info address with
      | none => simp
      | some output => exact parseIntOr_ne_zero _ _ (by norm_num)
    · simp only [hkey, if_false] at h2
      exact h key2 entry2 h2

/-- With the token info built by `fetchTokenInfo`, the decimals used for an
address are those of its entry whenever the entry exists. -/
theorem decimalsOf_fetchTokenInfo (erc20info : String → Option Erc20Output)
    (tokenAddresses : List String) (address : String) (entry : TokenEntry)
    (h : fetchTokenInfo erc20info tokenAddresses (toLowerCase address) = some entry) :
    decimalsOf (fetchTokenInfo erc20info tokenAddresses) address = entry.decimals := by
  have hne : entry.decimals ≠ 0 :=
    fetchTokenInfoLoop_decimals_ne_zero erc20info tokenAddresses (fun _ => none)
      (fun _ _ hk => by simp at hk) (toLowerCase address) entry h
  simp [decimalsOf, h, hne]

/-- The lookup `tokenInfo[...]?.decimals || 18` on any token info, also one
that `fetchTokenInfo` cannot build: the principal (resp. collateral) decimals
used by the enrichment are the decimals recorded in the token info for that
token when the entry exists and records a non-zero number, and 18 when the entry
is absent or records 0. -/
theorem enrichPool_decimals (tokenInfo : TokenInfo) (pricesByAddress : PricesByAddress)
    (pool : RawPool) :
    (∀ entry : TokenEntry, tokenInfo (toLowerCase pool.principal_token_address) = some entry →
      ((entry.decimals ≠ 0 →
        (enrichPool tokenInfo pricesByAddress pool).principalTokenDecimals = entry.decimals) ∧
       (entry.decimals = 0 →
        (enrichPool tokenInfo pricesByAddress pool).principalTokenDecimals = 18))) ∧
    (tokenInfo (toLowerCase pool.principal_token_address) = none →
      (enrichPool tokenInfo pricesByAddress pool).principalTokenDecimals = 18) ∧
    (∀ entry : TokenEntry, tokenInfo (toLowerCase pool.collateral_token_address) = some entry →
      ((entry.decimals ≠ 0 →
        (enrichPool tokenInfo pricesByAddress pool).collateralTokenDecimals = entry.decimals) ∧
       (entry.decimals = 0 →
        (enrichPool tokenInfo pricesByAddress pool).collateralTokenDecimals = 18))) ∧
    (tokenInfo (toLowerCase pool.collateral_token_address) = none →
      (enrichPool tokenInfo pricesByAddress pool).collateralTokenDecimals = 18) := by
  refine ⟨?_, ?_, ?_, ?_⟩
  · intro entry he
    constructor <;> intro hd <;>
      simp [enrichPool, principalTokenDecimals, decimalsOf, he, hd]
  · intro he
    simp [enrichPool, principalTokenDecimals, decimalsOf, he]
  · intro entry he
    constructor <;> intro hd <;>
      simp [enrichPool, collateralTokenDecimals, decimalsOf, he, hd]
  · intro he
    simp [enrichPool, collateralTokenDecimals, decimalsOf, he]

theorem enrichPool_decimals_witness :
    (sampleTokenInfo (toLowerCase examplePool.collateral_token_address) =
        some { symbol := "WBTC", decimals := 8 } ∧
      (enrichPool sampleTokenInfo samplePrices examplePool).collateralTokenDecimals = 8) ∧
    (zeroDecimalsTokenInfo (toLowerCase examplePool.principal_token_address) =
        some { symbol := "NFT", decimals := 0 } ∧
      (enrichPool zeroDecimalsTokenInfo samplePrices examplePool).principalTokenDecimals = 18) ∧
    (zeroDecimalsTokenInfo (toLowerCase examplePool.collateral_token_address) = none ∧
      (enrichPool zeroDecimalsTokenInfo samplePrices examplePool).collateralTokenDecimals = 18) :=
  ⟨⟨by decide,
      ((enrichPool_decimals sampleTokenInfo samplePrices examplePool).2.2.1
        { symbol := "WBTC", decimals := 8 } (by decide)).1 (by decide)⟩,
    ⟨by decide,
      ((enrichPool_decimals zeroDecimalsTokenInfo samplePrices examplePool).1
        { symbol := "NFT", decimals := 0 } (by decide)).2 (by decide)⟩,
    ⟨by decide,
      (enrichPool_decimals zeroDecimalsTokenInfo samplePrices examplePool).2.2.2 (by decide)⟩⟩

/-- C8: with the token info that `fetchTokenInfo` builds (for any outcome of the
calls to `sdk.api.erc20.info` and any list of addresses), for every pool and
every price object, the principal (resp. collateral) decimals used by the
enrichment are the decimals recorded in the token info for that token whenever
it has an entry for it, and are 18 when the entry is absent. -/
theorem enrichPool_decimals_fetched (erc20info : String → Option Erc20Output)
    (tokenAddresses : List String) (pricesByAddress : PricesByAddress) (pool : RawPool) :
    (∀ entry : TokenEntry,
      fetchTokenInfo erc20info tokenAddresses (toLowerCase pool.principal_token_address)
        = some entry →
      (enrichPool (fetchTokenInfo erc20info tokenAddresses) pricesByAddress
        pool).principalTokenDecimals = entry.decimals) ∧
    (fetchTokenInfo erc20info tokenAddresses (toLowerCase pool.principal_token_address)
        = none →
      (enrichPool (fetchTokenInfo erc20info tokenAddresses) pricesByAddress
        pool).principalTokenDecimals = 18) ∧
    (∀ entry : TokenEntry,
      fetchTokenInfo erc20info tokenAddresses (toLowerCase pool.collateral_token_address)
        = some entry →
      (enrichPool (fetchTokenInfo erc20info tokenAddresses) pricesByAddress
        pool).collateralTokenDecimals = entry.decimals) ∧
    (fetchTokenInfo erc20info tokenAddresses (toLowerCase pool.collateral_token_address)
        = none →
      (enrichPool (fetchTokenInfo erc20info tokenAddresses) pricesByAddress
        pool).collateralTokenDecimals = 18) := by
  refine ⟨?_, ?_, ?_, ?_⟩
  · intro entry he
    exact decimalsOf_fetchTokenInfo erc20info tokenAddresses _ entry he
  · intro he
    simp [enrichPool, principalTokenDecimals, decimalsOf, he]
  · intro entry he
    exact decimalsOf_fetchTokenInfo erc20info tokenAddresses _ entry he
  · intro he
    simp [enrichPool, collateralTokenDecimals, decimalsOf, he]

theorem enrichPool_decimals_fetched_witness :
    (fetchTokenInfo sampleErc20 ["0xAAA", "0xBBB"]
        (toLowerCase examplePool.principal_token_address)
        = some { symbol := "USDC", decimals := 6 } ∧
      (enrichPool (fetchTokenInfo sampleErc20 ["0xAAA", "0xBBB"]) samplePrices
        examplePool).principalTokenDecimals = 6) ∧
    (fetchTokenInfo sampleErc20 ["0xAAA", "0xBBB"]
        (toLowerCase examplePool.collateral_token_address)
        = some { symbol := "NFT", decimals := 18 } ∧
      (enrichPool (fetchTokenInfo sampleErc20 ["0xAAA", "0xBBB"]) samplePrices
        examplePool).collateralTokenDecimals = 18) ∧
    (fetchTokenInfo sampleErc20 ["0xAAA"]
        (toLowerCase examplePool.collateral_token_address) = none ∧
      (enrichPool (fetchTokenInfo sampleErc20 ["0xAAA"]) samplePrices
        examplePool).collateralTokenDecimals = 18) :=
  ⟨⟨by decide,
      (enrichPool_decimals_fetched sampleErc20 ["0xAAA", "0xBBB"] samplePrices examplePool).1
        { symbol := "USDC", decimals := 6 } (by decide)⟩,
    ⟨by decide,
      (enrichPool_decimals_fetched sampleErc20 ["0xAAA", "0xBBB"] samplePrices
        examplePool).2.2.1 { symbol := "NFT", decimals := 18 } (by decide)⟩,
    ⟨by decide,
      (enrichPool_decimals_fetched sampleErc20 ["0xAAA"] samplePrices examplePool).2.2.2
        (by decide)⟩⟩

/-! ## USD figures -/

theorem sample_keys :
    toLowerCase "0xAAA" = "0xaaa" ∧ toLowerCase "0xBBB" = "0xbbb" := by
  decide

theorem divisor_ne_zero (d : Int) : ((10 : ℚ) ^ d) ≠ 0 :=
  zpow_ne_zero d (by norm_num)

/-- The product `amount * (price / divisor)` for an integer amount and a
non-zero divisor. -/
theorem usd_fin (n : Int) (price divisor : ℚ) (hd : divisor ≠ 0) :
    JSNum.mul (JSNum.ofInt (some n)) (JSNum.div (.fin price) (.fin divisor)) =
      .fin ((n : ℚ) * (price / divisor)) := by
  simp [JSNum.mul, JSNum.div, JSNum.ofInt, hd]

/-- The USD figures of a pool whose counters are integers and whose net
committed and net borrowed principal stay below 10^21 in magnitude: each is the
raw amount times (price / 10^decimals), and tvlUsd is the difference of supply
and borrow (in exact arithmetic: see `parseIntOfNumber` for sums within a
rounding error of 10^21). -/
theorem usd_figures_of_small (tokenInfo : TokenInfo) (pricesByAddress : PricesByAddress)
    (pool : RawPool) (b c e w : Int)
    (hb : totalTokensActivelyBorrowed pool = some b)
    (hc : totalTokensActivelyCommitted pool = some c)
    (he : parseInt pool.total_collateral_tokens_escrowed = some e)
    (hw : parseInt pool.total_collateral_withdrawn = some w)
    (hbs : b.natAbs < 10 ^ 21) (hcs : c.natAbs < 10 ^ 21) :
    (enrichPool tokenInfo pricesByAddress pool).totalSupplyUsd =
      .fin ((c : ℚ) * (priceOf pricesByAddress pool.principal_token_address /
        (10 : ℚ) ^ principalTokenDecimals tokenInfo pool)) ∧
    (enrichPool tokenInfo pricesByAddress pool).totalBorrowUsd =
      .fin ((b : ℚ) * (priceOf pricesByAddress pool.principal_token_address /
        (10 : ℚ) ^ principalTokenDecimals tokenInfo pool)) ∧
    (enrichPool tokenInfo pricesByAddress pool).totalCollateralUsd =
      .fin (((e - w : Int) : ℚ) * (priceOf pricesByAddress pool.collateral_token_address /
        (10 : ℚ) ^ collateralTokenDecimals tokenInfo pool)) ∧
    (enrichPool tokenInfo pricesByAddress pool).tvlUsd =
      .fin ((c : ℚ) * (priceOf pricesByAddress pool.principal_token_address /
          (10 : ℚ) ^ principalTokenDecimals tokenInfo pool) -
        (b : ℚ) * (priceOf pricesByAddress pool.principal_token_address /
          (10 : ℚ) ^ principalTokenDecimals tokenInfo pool)) := by
  have hs : totalSupplyUsd tokenInfo pricesByAddress pool =
      .fin ((c : ℚ) * (priceOf pricesByAddress pool.principal_token_address /
        (10 : ℚ) ^ principalTokenDecimals tokenInfo pool)) := by
    unfold totalSupplyUsd totalCommitted principalTokenDivisor
    rw [hc, parseIntOfNumber_eq_self c hcs, usd_fin _ _ _ (divisor_ne_zero _)]
  have hbo : totalBorrowUsd tokenInfo pricesByAddress pool =
      .fin ((b : ℚ) * (priceOf pricesByAddress pool.principal_token_address /
        (10 : ℚ) ^ principalTokenDecimals tokenInfo pool)) := by
    unfold totalBorrowUsd totalBorrowed principalTokenDivisor
    rw [hb, parseIntOfNumber_eq_self b hbs, usd_fin _ _ _ (divisor_ne_zero _)]
  refine ⟨hs, hbo, ?_, ?_⟩
  · show totalCollateralUsd tokenInfo pricesByAddress pool = _
    unfold totalCollateralUsd totalCollateralEscrowedNet collateralTokenDivisor
    rw [he, hw]
    exact usd_fin _ _ _ (divisor_ne_zero _)
  · show tvlUsd tokenInfo pricesByAddress pool = _
    unfold tvlUsd
    rw [hs, hbo]
    simp [JSNum.sub, JSNum.add, JSNum.neg, sub_eq_add_neg]

/-- The enriched tvlUsd is the enriched totalSupplyUsd minus the enriched
totalBorrowUsd, for every pool. -/
theorem enrichPool_tvlUsd (tokenInfo : TokenInfo) (pricesByAddress : PricesByAddress)
    (pool : RawPool) :
    (enrichPool tokenInfo pricesByAddress pool).tvlUsd =
      JSNum.sub (enrichPool tokenInfo pricesByAddress pool).totalSupplyUsd
        (enrichPool tokenInfo pricesByAddress pool).totalBorrowUsd :=
  rfl

/-- C9, evaluated at a pool with 10^21 units committed (1000 tokens of 18
decimals, price 1) and 5 * 10^20 borrowed: the net committed principal times
(price / 10^decimals) is 1000, but the enriched totalSupplyUsd is 1 / 10^18,
since `parseInt` reads the committed sum, rendered `1e+21`, as 1; the enriched
totalBorrowUsd is 500 and the enriched tvlUsd is negative. -/
theorem totalSupplyUsd_largePool :
    totalTokensActivelyCommitted largePool = some (10 ^ 21) ∧
    priceOf samplePrices largePool.principal_token_address = 1 ∧
    (enrichPool sampleTokenInfo samplePrices largePool).principalTokenDecimals = 18 ∧
    JSNum.mul (JSNum.ofInt (totalTokensActivelyCommitted largePool))
      (JSNum.div (.fin 1) (.fin ((10 : ℚ) ^ (18 : Int)))) = .fin 1000 ∧
    (enrichPool sampleTokenInfo samplePrices largePool).totalSupplyUsd = .fin (1 / 10 ^ 18) ∧
    (enrichPool sampleTokenInfo samplePrices largePool).totalBorrowUsd = .fin 500 ∧
    (enrichPool sampleTokenInfo samplePrices largePool).tvlUsd = .fin (1 / 10 ^ 18 - 500) := by
  obtain ⟨e1, e2, e3, e4⟩ := largePool_values
  obtain ⟨ka, -⟩ := sample_keys
  have hp : priceOf samplePrices largePool.principal_token_address = 1 := by
    simp [priceOf, samplePrices, largePool, samplePool, ka]
  have hd : principalTokenDecimals sampleTokenInfo largePool = 18 := by
    simp [principalTokenDecimals, decimalsOf, sampleTokenInfo, largePool, samplePool, ka]
  have hs : totalSupplyUsd sampleTokenInfo samplePrices largePool = .fin (1 / 10 ^ 18) := by
    unfold totalSupplyUsd principalTokenDivisor
    rw [e3, hp, hd, usd_fin _ _ _ (divisor_ne_zero _)]
    norm_num
  have hb : totalBorrowUsd sampleTokenInfo samplePrices largePool = .fin 500 := by
    unfold totalBorrowUsd principalTokenDivisor
    rw [e4, hp, hd, usd_fin _ _ _ (divisor_ne_zero _)]
    norm_num
  refine ⟨e1, hp, hd, ?_, hs, hb, ?_⟩
  · rw [e1, usd_fin _ _ _ (divisor_ne_zero _)]
    norm_num
  · show tvlUsd sampleTokenInfo samplePrices largePool = _
    unfold tvlUsd
    rw [hs, hb]
    simp [JSNum.sub, JSNum.add, JSNum.neg, sub_eq_add_neg]

/-! ## Loan to value -/

/-- C10: for a pool whose collateral_ratio reads as a non-zero integer c, the
enriched ltv is the finite number 100 / (c / 100), which equals 10000 / c. -/
theorem enrichPool_ltv (tokenInfo : TokenInfo) (pricesByAddress : PricesByAddress)
    (pool : RawPool) (c : Int) (hc : parseInt pool.collateral_ratio = some c) (h0 : c ≠ 0) :
    (enrichPool tokenInfo pricesByAddress pool).ltv = .fin (100 / ((c : ℚ) / 100)) ∧
    (100 / ((c : ℚ) / 100) = 10000 / (c : ℚ)) ∧
    JSNum.isFinite (enrichPool tokenInfo pricesByAddress pool).ltv = true := by
  have hq : (c : ℚ) ≠ 0 := by exact_mod_cast h0
  have hl : (enrichPool tokenInfo pricesByAddress pool).ltv = .fin (100 / ((c : ℚ) / 100)) := by
    show ltv pool = _
    unfold ltv
    rw [hc]
    simp [JSNum.div, JSNum.ofInt, hq]
  refine ⟨hl, ?_, ?_⟩
  · field_simp
    norm_num
  · rw [hl]
    rfl

theorem enrichPool_ltv_witness :
    (parseInt lowerOnlyPool.collateral_ratio = some 200 ∧ (200 : Int) ≠ 0 ∧
      (enrichPool sampleTokenInfo samplePrices lowerOnlyPool).ltv = .fin 50) ∧
    (parseInt examplePool.collateral_ratio = some 150 ∧ (150 : Int) ≠ 0 ∧
      (enrichPool sampleTokenInfo samplePrices examplePool).ltv = .fin (200 / 3)) := by
  have h200 := enrichPool_ltv sampleTokenInfo samplePrices lowerOnlyPool 200 (by decide)
    (by decide)
  have h150 := enrichPool_ltv sampleTokenInfo samplePrices examplePool 150 (by decide)
    (by decide)
  refine ⟨⟨by decide, by decide, ?_⟩, ⟨by decide, by decide, ?_⟩⟩
  · rw [h200.1]
    norm_num
  · rw [h150.1]
    norm_num

/-! ## The projection -/

theorem enrichAll_eq_map (env : Collaborators) (chainString : String) (tokenInfo : TokenInfo)
    (dataNow : List RawPool)
    (hprices : ∀ pool ∈ dataNow, ∃ prices,
      env.getPrices [pool.principal_token_address, pool.collateral_token_address] chainString
        = some prices) :
    enrichAll env chainString tokenInfo dataNow =
      some (dataNow.map
        (fun pool => enrichPool tokenInfo (pricesFor env chainString pool) pool)) := by
  induction dataNow with
  | nil => rfl
  | cons pool rest ih =>
    obtain ⟨prices, hp⟩ := hprices pool (List.mem_cons_self _ _)
    have hrest := ih (fun q hq => hprices q (List.mem_cons_of_mem _ hq))
    simp [enrichAll, hp, hrest, pricesFor]

theorem flatMap_pair_length {α β : Type} (g h : α → β) (l : List α) :
    (l.flatMap (fun x => [g x, h x])).length = 2 * l.length := by
  induction l with
  | nil => rfl
  | cons x xs ih =>
    simp only [List.flatMap_cons, List.length_append, List.length_cons, List.length_nil, ih]
    omega

theorem flatMap_pair_getElem {α β : Type} (g h : α → β) (l : List α) :
    ∀ i : Nat, (l.flatMap (fun x => [g x, h x]))[2 * i]? = l[i]?.map g ∧
      (l.flatMap (fun x => [g x, h x]))[2 * i + 1]? = l[i]?.map h := by
  induction l with
  | nil => intro i; simp
  | cons x xs ih =>
    intro i
    cases i with
    | zero => simp
    | succ j =>
      have e1 : 2 * (j + 1) = (2 * j) + 1 + 1 := by omega
      have e2 : 2 * (j + 1) + 1 = (2 * j + 1) + 1 + 1 := by omega
      obtain ⟨h1, h2⟩ := ih j
      constructor
      · rw [e1]
        simpa using h1
      · rw [e2]
        simpa using h2

/-- The records of `topLvl` when the request and every price fetch succeed. -/
theorem topLvl_eq_flatMap (env : Collaborators) (chainString url : String)
    (timestamp : Option Nat) (dataNow : List RawPool)
    (hfetch : env.fetchPools chainString url timestamp = some dataNow)
    (hprices : ∀ pool ∈ dataNow, ∃ prices,
      env.getPrices [pool.principal_token_address, pool.collateral_token_address] chainString
        = some prices) :
    topLvl env chainString url timestamp =
      some ((dataNow.map (fun pool =>
        enrichPool
          (fetchTokenInfo (fun address => env.erc20info address chainString)
            (tokenAddresses dataNow))
          (pricesFor env chainString pool) pool)).flatMap (projectPool env chainString)) := by
  unfold topLvl
  rw [hfetch]
  simp only [enrichAll_eq_map env chainString _ dataNow hprices]

/-- C11: when the request and the price fetches succeed on a list of n raw
pools, `topLvl` returns (before the filter of `main`) exactly 2n records in the
order of the pools: the records at positions 2i and 2i+1 are the lending record
and the collateral record of the enrichment of the i-th pool. -/
theorem topLvl_records (env : Collaborators) (chainString url : String)
    (timestamp : Option Nat) (dataNow : List RawPool)
    (hfetch : env.fetchPools chainString url timestamp = some dataNow)
    (hprices : ∀ pool ∈ dataNow, ∃ prices,
      env.getPrices [pool.principal_token_address, pool.collateral_token_address] chainString
        = some prices) :
    ∃ records, topLvl env chainString url timestamp = some records ∧
      records.length = 2 * dataNow.length ∧
      ∀ (i : Nat) (pool : RawPool), dataNow[i]? = some pool →
        ∃ prices,
          env.getPrices [pool.principal_token_address, pool.collateral_token_address]
            chainString = some prices ∧
          records[2 * i]? = some (lendingPool env chainString
            (enrichPool (fetchTokenInfo (fun address => env.erc20info address chainString)
              (tokenAddresses dataNow)) prices pool)) ∧
          records[2 * i + 1]? = some (collateralPool env chainString
            (enrichPool (fetchTokenInfo (fun address => env.erc20info address chainString)
              (tokenAddresses dataNow)) prices pool)) := by
  refine ⟨_, topLvl_eq_flatMap env chainString url timestamp dataNow hfetch hprices, ?_, ?_⟩
  · unfold projectPool
    rw [flatMap_pair_length, List.length_map]
  · intro i pool hi
    obtain ⟨prices, hp⟩ := hprices pool (List.getElem?_mem hi)
    refine ⟨prices, hp, ?_⟩
    have hpf : pricesFor env chainString pool = prices := by simp [pricesFor, hp]
    obtain ⟨h1, h2⟩ := flatMap_pair_getElem (lendingPool env chainString)
      (collateralPool env chainString)
      (dataNow.map (fun pool => enrichPool
        (fetchTokenInfo (fun address => env.erc20info address chainString)
          (tokenAddresses dataNow)) (pricesFor env chainString pool) pool)) i
    unfold projectPool
    rw [h1, h2, List.getElem?_map, hi]
    simp [hpf]

theorem topLvl_records_witness :
    (sampleEnv [examplePool, skewedPool]).fetchPools "ethereum" "url" none
      = some [examplePool, skewedPool] ∧
    ∃ records, topLvl (sampleEnv [examplePool, skewedPool]) "ethereum" "url" none
        = some records ∧
      records.length = 2 * [examplePool, skewedPool].length ∧
      ∀ (i : Nat) (pool : RawPool), [examplePool, skewedPool][i]? = some pool →
        ∃ prices,
          (sampleEnv [examplePool, skewedPool]).getPrices
            [pool.principal_token_address, pool.collateral_token_address] "ethereum"
              = some prices ∧
          records[2 * i]? = some (lendingPool (sampleEnv [examplePool, skewedPool]) "ethereum"
            (enrichPool (fetchTokenInfo
              (fun address => (sampleEnv [examplePool, skewedPool]).erc20info address "ethereum")
              (tokenAddresses [examplePool, skewedPool])) prices pool)) ∧
          records[2 * i + 1]? = some (collateralPool (sampleEnv [examplePool, skewedPool])
            "ethereum"
            (enrichPool (fetchTokenInfo
              (fun address => (sampleEnv [examplePool, skewedPool]).erc20info address "ethereum")
              (tokenAddresses [examplePool, skewedPool])) prices pool)) :=
  ⟨rfl, topLvl_records (sampleEnv [examplePool, skewedPool]) "ethereum" "url" none
    [examplePool, skewedPool] rfl (fun _ _ => ⟨_, rfl⟩)⟩

/-- C12: the collateral record of an enriched pool has tvlUsd and
totalSupplyUsd equal to the enriched totalCollateralUsd, totalBorrowUsd equal to
the enriched totalBorrowUsd, apyBaseBorrow equal to the enriched borrowApy,
apyBase 0, the collateral symbol as symbol and the principal symbol as
mintedCoin; it is the second record of the projection. -/
theorem collateralPool_fields (env : Collaborators) (chainString : String) (p : EnrichedPool) :
    (projectPool env chainString p)[1]? = some (collateralPool env chainString p) ∧
    (collateralPool env chainString p).tvlUsd = p.totalCollateralUsd ∧
    (collateralPool env chainString p).totalSupplyUsd = some p.totalCollateralUsd ∧
    (collateralPool env chainString p).totalBorrowUsd = some p.totalBorrowUsd ∧
    (collateralPool env chainString p).apyBaseBorrow = some p.borrowApy ∧
    (collateralPool env chainString p).apyBase = .fin 0 ∧
    (collateralPool env chainString p).symbol = p.collateralSymbol ∧
    (collateralPool env chainString p).mintedCoin = some p.principalSymbol :=
  ⟨rfl, rfl, rfl, rfl, rfl, rfl, rfl, rfl⟩

/-- C13: the lending record of an enriched pool has tvlUsd equal to the enriched
totalSupplyUsd, apyBase equal to the enriched apyBase and the principal symbol
as symbol; it is the first record of the projection; and the lending and the
collateral record carry the same pool identifier (the pool address), the same
protocol label `teller`, the same URL and the same underlying tokens, the
principal address followed by the collateral address. -/
theorem lendingPool_fields (env : Collaborators) (chainString : String) (p : EnrichedPool) :
    (projectPool env chainString p)[0]? = some (lendingPool env chainString p) ∧
    (lendingPool env chainString p).tvlUsd = p.totalSupplyUsd ∧
    (lendingPool env chainString p).apyBase = p.apyBase ∧
    (lendingPool env chainString p).symbol = p.principalSymbol ∧
    (lendingPool env chainString p).pool = p.pool.group_pool_address ∧
    (collateralPool env chainString p).pool = (lendingPool env chainString p).pool ∧
    (lendingPool env chainString p).project = "teller" ∧
    (collateralPool env chainString p).project = "teller" ∧
    (collateralPool env chainString p).url = (lendingPool env chainString p).url ∧
    (lendingPool env chainString p).underlyingTokens =
      [p.pool.principal_token_address, p.pool.collateral_token_address] ∧
    (collateralPool env chainString p).underlyingTokens =
      [p.pool.principal_token_address, p.pool.collateral_token_address] :=
  ⟨rfl, rfl, rfl, rfl, rfl, rfl, rfl, rfl, rfl, rfl, rfl⟩

/-- C14: for a pool whose principal token has no entry in the token info, the
enrichment (a total function) yields the principal symbol `UNKNOWN` and 18
principal decimals, and the projection of the enriched pool has exactly two
records. -/
theorem enrichPool_unknown_principal (env : Collaborators) (chainString : String)
    (tokenInfo : TokenInfo) (pricesByAddress : PricesByAddress) (pool : RawPool)
    (h : tokenInfo (toLowerCase pool.principal_token_address) = none) :
    (enrichPool tokenInfo pricesByAddress pool).principalSymbol = "UNKNOWN" ∧
    (enrichPool tokenInfo pricesByAddress pool).principalTokenDecimals = 18 ∧
    (projectPool env chainString (enrichPool tokenInfo pricesByAddress pool)).length = 2 ∧
    (projectPool env chainString (enrichPool tokenInfo pricesByAddress pool)).map
      (fun r => r.symbol) = ["UNKNOWN", symbolOf tokenInfo pool.collateral_token_address] := by
  refine ⟨?_, ?_, rfl, ?_⟩
  · simp [enrichPool, principalSymbol, symbolOf, h]
  · simp [enrichPool, principalTokenDecimals, decimalsOf, h]
  · simp [projectPool, lendingPool, collateralPool, enrichPool, principalSymbol,
      collateralSymbol, symbolOf, h]

theorem enrichPool_unknown_principal_witness :
    (fun _ => none : TokenInfo) (toLowerCase examplePool.principal_token_address) = none ∧
    (enrichPool (fun _ => none) samplePrices examplePool).principalSymbol = "UNKNOWN" ∧
    (enrichPool (fun _ => none) samplePrices examplePool).principalTokenDecimals = 18 ∧
    (projectPool (sampleEnv []) "ethereum"
      (enrichPool (fun _ => none) samplePrices examplePool)).length = 2 ∧
    (projectPool (sampleEnv []) "ethereum"
      (enrichPool (fun _ => none) samplePrices examplePool)).map (fun r => r.symbol)
        = ["UNKNOWN", symbolOf (fun _ => none) examplePool.collateral_token_address] :=
  ⟨rfl, enrichPool_unknown_principal (sampleEnv []) "ethereum" (fun _ => none) samplePrices
    examplePool rfl⟩

/-! ## The driver and the final filter -/

/-- The utilization is a finite number of [0, 1] once the net sums read by
`parseInt` are integers. -/
theorem poolBorrowedPercent_fin_of (pool : RawPool) (c b : Int)
    (hc : totalCommitted pool = some c) (hb : totalBorrowed pool = some b) :
    ∃ q : ℚ, poolBorrowedPercent pool = .fin q ∧ 0 ≤ q ∧ q ≤ 1 := by
  unfold poolBorrowedPercent
  rw [hc, hb]
  by_cases hpos : 0 < c
  · refine ⟨min (max ((b : ℚ) / (c : ℚ)) 0) 1, ?_, ?_, ?_⟩
    · rw [div_fin_int b c (ne_of_gt hpos), clamp_fin]
      simp [intGtZero, hpos]
    · exact le_min (le_max_right _ _) (by norm_num)
    · exact min_le_right _ _
  · exact ⟨0, by simp [intGtZero, hpos], le_refl _, by norm_num⟩

/-- What the enrichment computes for a pool with integer counters. -/
theorem integerCounters_values (pool : RawPool) (h : hasIntegerCounters pool = true) :
    ∃ (c b e : Int) (q : ℚ), totalCommitted pool = some c ∧ totalBorrowed pool = some b ∧
      totalCollateralEscrowedNet pool = some e ∧ poolBorrowedPercent pool = .fin q := by
  simp only [hasIntegerCounters, Bool.and_eq_true, Option.isSome_iff_exists] at h
  obtain ⟨⟨⟨⟨⟨⟨⟨⟨c0, h1⟩, ⟨w0, h2⟩⟩, ⟨b0, h3⟩⟩, ⟨i0, h4⟩⟩, ⟨l0, h5⟩⟩, ⟨r0, h6⟩⟩, ⟨e0, h7⟩⟩,
    ⟨x0, h8⟩⟩ := h
  obtain ⟨c, hc⟩ := parseIntOfNumber_isSome (c0 + i0 + l0 - w0)
  obtain ⟨b, hb⟩ := parseIntOfNumber_isSome (b0 - r0)
  have hc2 : totalCommitted pool = some c := by
    simp [totalCommitted, totalTokensActivelyCommitted, totalInterestCollected,
      tokenDifferenceFromLiquidatons, h1, h2, h4, h5, intAdd, intSub, hc]
  have hb2 : totalBorrowed pool = some b := by
    simp [totalBorrowed, totalTokensActivelyBorrowed, h3, h6, intSub, hb]
  have he : totalCollateralEscrowedNet pool = some (e0 - x0) := by
    simp [totalCollateralEscrowedNet, h7, h8, intSub]
  obtain ⟨q, hq, -, -⟩ := poolBorrowedPercent_fin_of pool c b hc2 hb2
  exact ⟨c, b, e0 - x0, q, hc2, hb2, he, hq⟩

/-- With integer counters and price 0 for both tokens, both records of a pool
have tvlUsd 0 and only finite numeric attributes. -/
theorem projectPool_zero_price (env : Collaborators) (chainString : String)
    (tokenInfo : TokenInfo) (prices : PricesByAddress) (pool : RawPool)
    (hint : hasIntegerCounters pool = true)
    (hp : priceOf prices pool.principal_token_address = 0)
    (hcp : priceOf prices pool.collateral_token_address = 0) :
    ∀ r ∈ projectPool env chainString (enrichPool tokenInfo prices pool),
      r.tvlUsd = .fin 0 ∧ keepFinite r = true := by
  obtain ⟨c, b, e, q, hc, hb, he, hq⟩ := integerCounters_values pool hint
  have hs : totalSupplyUsd tokenInfo prices pool = .fin 0 := by
    unfold totalSupplyUsd principalTokenDivisor
    rw [hc, hp, usd_fin _ _ _ (divisor_ne_zero _)]
    simp
  have hbo : totalBorrowUsd tokenInfo prices pool = .fin 0 := by
    unfold totalBorrowUsd principalTokenDivisor
    rw [hb, hp, usd_fin _ _ _ (divisor_ne_zero _)]
    simp
  have hco : totalCollateralUsd tokenInfo prices pool = .fin 0 := by
    unfold totalCollateralUsd collateralTokenDivisor
    rw [he, hcp, usd_fin _ _ _ (divisor_ne_zero _)]
    simp
  have ha : ∃ a, apyBase pool = .fin a := by
    unfold apyBase
    rw [hq, lenderYield_fin]
    exact ⟨_, rfl⟩
  have hba : ∃ a, borrowApy pool = .fin a := by
    unfold borrowApy
    rw [hq, borrowerYield_fin]
    exact ⟨_, rfl⟩
  obtain ⟨a, ha⟩ := ha
  obtain ⟨a2, hba⟩ := hba
  intro r hr
  simp only [projectPool, List.mem_cons, List.mem_singleton, List.not_mem_nil, or_false] at hr
  rcases hr with hr | hr
  · subst hr
    simp [lendingPool, enrichPool, keepFinite, finiteOrAbsent, JSNum.isFinite, hs, ha]
  · subst hr
    simp [collateralPool, enrichPool, keepFinite, finiteOrAbsent, JSNum.isFinite, hco, hbo, hba]

/-- The function `main` on its one configured chain. -/
theorem main_eq (env : Collaborators) (timestamp : Option Nat) :
    main env timestamp =
      (match topLvl env "ethereum"
          (env.modifyEndpoint "x6qJPkv7FaCWkfcjDWx12Z2NEfsvCCwuy87vQzk9zRh") timestamp with
        | some chainData => chainData
        | none => []).filter env.keepFinite := by
  unfold main chains
  simp only [mainLoop]
  cases topLvl env "ethereum"
      (env.modifyEndpoint "x6qJPkv7FaCWkfcjDWx12Z2NEfsvCCwuy87vQzk9zRh") timestamp with
  | none => rfl
  | some chainData => simp [mainLoop]

/-- C15: when the request succeeds on the configured chain, every pool has
integer counters, and the prices fetched for every pool give 0 (or no entry)
for both of its tokens, then every projected record has tvlUsd 0 and the filter
that keeps the records with only finite numbers removes none of them: `main`
returns all of them, two per pool. -/
theorem main_zero_prices (env : Collaborators) (timestamp : Option Nat) (dataNow : List RawPool)
    (hk : env.keepFinite = keepFinite)
    (hfetch : env.fetchPools "ethereum"
      (env.modifyEndpoint "x6qJPkv7FaCWkfcjDWx12Z2NEfsvCCwuy87vQzk9zRh") timestamp
        = some dataNow)
    (hpools : ∀ pool ∈ dataNow, hasIntegerCounters pool = true ∧
      ∃ prices,
        env.getPrices [pool.principal_token_address, pool.collateral_token_address] "ethereum"
          = some prices ∧
        priceOf prices pool.principal_token_address = 0 ∧
        priceOf prices pool.collateral_token_address = 0) :
    ∃ records,
      topLvl env "ethereum"
        (env.modifyEndpoint "x6qJPkv7FaCWkfcjDWx12Z2NEfsvCCwuy87vQzk9zRh") timestamp
          = some records ∧
      (∀ r ∈ records, r.tvlUsd = .fin 0) ∧
      records.filter keepFinite = records ∧
      main env timestamp = records ∧
      (main env timestamp).length = 2 * dataNow.length := by
  have hprices : ∀ pool ∈ dataNow, ∃ prices,
      env.getPrices [pool.principal_token_address, pool.collateral_token_address] "ethereum"
        = some prices := by
    intro pool hpool
    obtain ⟨-, prices, h, -⟩ := hpools pool hpool
    exact ⟨prices, h⟩
  have htop := topLvl_eq_flatMap env "ethereum" _ timestamp dataNow hfetch hprices
  have hall : ∀ r ∈ (dataNow.map (fun pool =>
        enrichPool
          (fetchTokenInfo (fun address => env.erc20info address "ethereum")
            (tokenAddresses dataNow))
          (pricesFor env "ethereum" pool) pool)).flatMap (projectPool env "ethereum"),
      r.tvlUsd = .fin 0 ∧ keepFinite r = true := by
    intro r hr
    rw [List.mem_flatMap] at hr
    obtain ⟨p, hp, hrp⟩ := hr
    rw [List.mem_map] at hp
    obtain ⟨pool, hpool, rfl⟩ := hp
    obtain ⟨hint, prices, hget, hp0, hc0⟩ := hpools pool hpool
    have hpf : pricesFor env "ethereum" pool = prices := by simp [pricesFor, hget]
    rw [hpf] at hrp
    exact projectPool_zero_price env "ethereum" _ prices pool hint hp0 hc0 r hrp
  have hfilter := List.filter_eq_self.mpr (fun r hr => (hall r hr).2)
  refine ⟨_, htop, fun r hr => (hall r hr).1, hfilter, ?_, ?_⟩
  · rw [main_eq, htop, hk]
    exact hfilter
  rw [main_eq, htop, hk]
  simp only [hfilter]
  unfold projectPool
  rw [flatMap_pair_length, List.length_map]

theorem main_zero_prices_witness :
    (sampleEnv [examplePool, skewedPool]).keepFinite = keepFinite ∧
    (sampleEnv [examplePool, skewedPool]).fetchPools "ethereum"
      ((sampleEnv [examplePool, skewedPool]).modifyEndpoint
        "x6qJPkv7FaCWkfcjDWx12Z2NEfsvCCwuy87vQzk9zRh") none
        = some [examplePool, skewedPool] ∧
    hasIntegerCounters examplePool = true ∧ hasIntegerCounters skewedPool = true ∧
    ∃ records,
      topLvl (sampleEnv [examplePool, skewedPool]) "ethereum"
        ((sampleEnv [examplePool, skewedPool]).modifyEndpoint
          "x6qJPkv7FaCWkfcjDWx12Z2NEfsvCCwuy87vQzk9zRh") none = some records ∧
      (∀ r ∈ records, r.tvlUsd = .fin 0) ∧
      records.filter keepFinite = records ∧
      main (sampleEnv [examplePool, skewedPool]) none = records ∧
      (main (sampleEnv [examplePool, skewedPool]) none).length
        = 2 * [examplePool, skewedPool].length := by
  have h1 : hasIntegerCounters examplePool = true := by decide
  have h2 : hasIntegerCounters skewedPool = true := by decide
  refine ⟨rfl, rfl, h1, h2,
    main_zero_prices (sampleEnv [examplePool, skewedPool]) none [examplePool, skewedPool]
      rfl rfl ?_⟩
  intro pool hpool
  simp only [List.mem_cons, List.mem_singleton, List.not_mem_nil, or_false] at hpool
  rcases hpool with rfl | rfl
  · exact ⟨h1, _, rfl, rfl, rfl⟩
  · exact ⟨h2, _, rfl, rfl, rfl⟩

/-- C16, with the filter `utils.keepFinite` as the spec describes it: every
record that `main` returns has only finite numbers in its numeric attributes; a
record whose tvlUsd is NaN is not returned; and every record collected from the
chains that is not returned has a non-finite numeric attribute. -/
theorem main_only_finite (env : Collaborators) (timestamp : Option Nat)
    (hk : env.keepFinite = keepFinite) :
    (∀ r ∈ main env timestamp,
      r.tvlUsd.isFinite = true ∧ r.apyBase.isFinite = true ∧
      finiteOrAbsent r.totalSupplyUsd = true ∧ finiteOrAbsent r.totalBorrowUsd = true ∧
      finiteOrAbsent r.apyBaseBorrow = true) ∧
    (∀ r : PositionRecord, r.tvlUsd = .nan → r ∉ main env timestamp) ∧
    (∀ r ∈ mainLoop env timestamp (chains env) [], r ∉ main env timestamp →
      (r.tvlUsd.isFinite = false ∨ r.apyBase.isFinite = false ∨
        finiteOrAbsent r.totalSupplyUsd = false ∨ finiteOrAbsent r.totalBorrowUsd = false ∨
        finiteOrAbsent r.apyBaseBorrow = false)) := by
  refine ⟨?_, ?_, ?_⟩
  · intro r hr
    unfold main at hr
    rw [hk, List.mem_filter] at hr
    have h := hr.2
    simp only [keepFinite, Bool.and_eq_true] at h
    exact ⟨h.1.1.1.1, h.1.1.1.2, h.1.1.2, h.1.2, h.2⟩
  · intro r hnan hr
    unfold main at hr
    rw [hk, List.mem_filter] at hr
    have h := hr.2
    simp [keepFinite, hnan, JSNum.isFinite] at h
  · intro r hdata hout
    unfold main at hout
    rw [hk, List.mem_filter] at hout
    have h : keepFinite r = false := by
      cases hkr : keepFinite r with
      | false => rfl
      | true => exact absurd ⟨hdata, hkr⟩ hout
    simp only [keepFinite, Bool.and_eq_false_iff] at h
    rcases h with (((h | h) | h) | h) | h
    · exact Or.inl h
    · exact Or.inr (Or.inl h)
    · exact Or.inr (Or.inr (Or.inl h))
    · exact Or.inr (Or.inr (Or.inr (Or.inl h)))
    · exact Or.inr (Or.inr (Or.inr (Or.inr h)))

theorem nan_mul (x : JSNum) : JSNum.mul (JSNum.ofInt none) x = .nan := by
  cases x <;> rfl

/-- The lending record of the pool with a missing committed counter has tvlUsd
NaN, and `main` drops it and keeps the collateral record. -/
theorem main_nanPool :
    ∃ lending collateral : PositionRecord,
      mainLoop (sampleEnv [nanPool]) none (chains (sampleEnv [nanPool])) []
        = [lending, collateral] ∧
      lending.tvlUsd = .nan ∧ collateral.tvlUsd = .fin 0 ∧
      main (sampleEnv [nanPool]) none = [collateral] := by
  obtain ⟨h0, h400, -⟩ := parseInt_sample_values
  have htop := topLvl_eq_flatMap (sampleEnv [nanPool]) "ethereum"
    ((sampleEnv [nanPool]).modifyEndpoint "x6qJPkv7FaCWkfcjDWx12Z2NEfsvCCwuy87vQzk9zRh") none
    [nanPool] rfl (fun _ _ => ⟨_, rfl⟩)
  simp only [List.map, List.flatMap_cons, List.flatMap_nil, List.append_nil, projectPool] at htop
  have hc : totalCommitted nanPool = none := by
    simp [totalCommitted, totalTokensActivelyCommitted, nanPool, samplePool, parseInt, intAdd,
      intSub, parseIntOfNumber]
  have hb : totalBorrowed nanPool = some 400 := by
    have e : totalTokensActivelyBorrowed nanPool = some 400 := by
      simp [totalTokensActivelyBorrowed, nanPool, samplePool, h0, h400, intSub]
    rw [totalBorrowed, e]
    exact parseIntOfNumber_eq_self _ (by norm_num)
  have he : totalCollateralEscrowedNet nanPool = some 0 := by
    simp [totalCollateralEscrowedNet, nanPool, samplePool, h0, intSub]
  have hu : poolBorrowedPercent nanPool = .fin 0 := by
    simp [poolBorrowedPercent, hc, intGtZero]
  have hs : ∀ (tokenInfo : TokenInfo) (prices : PricesByAddress),
      totalSupplyUsd tokenInfo prices nanPool = .nan := by
    intro tokenInfo prices
    unfold totalSupplyUsd
    rw [hc]
    exact nan_mul _
  have hbo : ∀ (tokenInfo : TokenInfo) (prices : PricesByAddress),
      ∃ x, totalBorrowUsd tokenInfo prices nanPool = .fin x := by
    intro tokenInfo prices
    unfold totalBorrowUsd principalTokenDivisor
    rw [hb, usd_fin _ _ _ (divisor_ne_zero _)]
    exact ⟨_, rfl⟩
  have hco : ∀ (tokenInfo : TokenInfo) (prices : PricesByAddress),
      totalCollateralUsd tokenInfo prices nanPool = .fin 0 := by
    intro tokenInfo prices
    unfold totalCollateralUsd collateralTokenDivisor
    rw [he, usd_fin _ _ _ (divisor_ne_zero _)]
    simp
  have hba : ∃ a, borrowApy nanPool = .fin a := by
    unfold borrowApy
    rw [hu, borrowerYield_fin]
    exact ⟨_, rfl⟩
  obtain ⟨a, hba⟩ := hba
  refine ⟨lendingPool (sampleEnv [nanPool]) "ethereum"
      (enrichPool
        (fetchTokenInfo (fun address => (sampleEnv [nanPool]).erc20info address "ethereum")
          (tokenAddresses [nanPool]))
        (pricesFor (sampleEnv [nanPool]) "ethereum" nanPool) nanPool),
    collateralPool (sampleEnv [nanPool]) "ethereum"
      (enrichPool
        (fetchTokenInfo (fun address => (sampleEnv [nanPool]).erc20info address "ethereum")
          (tokenAddresses [nanPool]))
        (pricesFor (sampleEnv [nanPool]) "ethereum" nanPool) nanPool), ?_, ?_, ?_, ?_⟩
  · unfold chains
    simp only [mainLoop, htop, List.nil_append]
  · exact hs _ _
  · exact hco _ _
  · obtain ⟨x, hx⟩ := hbo
      (fetchTokenInfo (fun address => (sampleEnv [nanPool]).erc20info address "ethereum")
        (tokenAddresses [nanPool])) (pricesFor (sampleEnv [nanPool]) "ethereum" nanPool)
    have hkl : keepFinite (lendingPool (sampleEnv [nanPool]) "ethereum"
        (enrichPool
          (fetchTokenInfo (fun address => (sampleEnv [nanPool]).erc20info address "ethereum")
            (tokenAddresses [nanPool]))
          (pricesFor (sampleEnv [nanPool]) "ethereum" nanPool) nanPool)) = false := by
      simp [keepFinite, lendingPool, enrichPool, JSNum.isFinite, hs]
    have hkc : keepFinite (collateralPool (sampleEnv [nanPool]) "ethereum"
        (enrichPool
          (fetchTokenInfo (fun address => (sampleEnv [nanPool]).erc20info address "ethereum")
            (tokenAddresses [nanPool]))
          (pricesFor (sampleEnv [nanPool]) "ethereum" nanPool) nanPool)) = true := by
      simp [keepFinite, collateralPool, enrichPool, finiteOrAbsent, JSNum.isFinite, hco, hx, hba]
    rw [main_eq, htop]
    show List.filter keepFinite _ = _
    rw [List.filter_cons_of_neg (by simp [hkl]), List.filter_cons_of_pos hkc, List.filter_nil]

theorem main_only_finite_witness :
    (sampleEnv [nanPool]).keepFinite = keepFinite ∧
    (∀ r ∈ main (sampleEnv [nanPool]) none,
      r.tvlUsd.isFinite = true ∧ r.apyBase.isFinite = true ∧
      finiteOrAbsent r.totalSupplyUsd = true ∧ finiteOrAbsent r.totalBorrowUsd = true ∧
      finiteOrAbsent r.apyBaseBorrow = true) ∧
    (∀ r : PositionRecord, r.tvlUsd = .nan → r ∉ main (sampleEnv [nanPool]) none) ∧
    (∀ r ∈ mainLoop (sampleEnv [nanPool]) none (chains (sampleEnv [nanPool])) [],
      r ∉ main (sampleEnv [nanPool]) none →
      (r.tvlUsd.isFinite = false ∨ r.apyBase.isFinite = false ∨
        finiteOrAbsent r.totalSupplyUsd = false ∨ finiteOrAbsent r.totalBorrowUsd = false ∨
        finiteOrAbsent r.apyBaseBorrow = false)) :=
  ⟨rfl, main_only_finite (sampleEnv [nanPool]) none rfl⟩

theorem mainLoop_eq (env : Collaborators) (timestamp : Option Nat)
    (cs : List (String × String)) :
    ∀ data : List PositionRecord,
      mainLoop env timestamp cs data = data ++ cs.flatMap (recordsOf env timestamp) := by
  induction cs with
  | nil => intro data; simp [mainLoop]
  | cons c rest ih =>
    intro data
    obtain ⟨chain, url⟩ := c
    cases h : topLvl env chain url timestamp with
    | none => simp [mainLoop, recordsOf, h, ih]
    | some chainData => simp [mainLoop, recordsOf, h, ih]

/-- C17: `main` is a total function of what its collaborators return.  Its loop
collects, in the order of the chains, the records of every chain whose `topLvl`
returns, and nothing for a chain whose `topLvl` throws; `main` returns the
collected records that pass the filter; and when `topLvl` throws for every
chain the result is empty. -/
theorem main_skips_failed_chains (env : Collaborators) (timestamp : Option Nat) :
    (∀ (cs : List (String × String)) (data : List PositionRecord),
      mainLoop env timestamp cs data = data ++ cs.flatMap (recordsOf env timestamp)) ∧
    (∀ entry : String × String, topLvl env entry.1 entry.2 timestamp = none →
      recordsOf env timestamp entry = []) ∧
    (∀ (entry : String × String) (chainData : List PositionRecord),
      topLvl env entry.1 entry.2 timestamp = some chainData →
      recordsOf env timestamp entry = chainData) ∧
    main env timestamp = ((chains env).flatMap (recordsOf env timestamp)).filter env.keepFinite ∧
    (∀ cs : List (String × String),
      (∀ entry ∈ cs, topLvl env entry.1 entry.2 timestamp = none) →
      mainLoop env timestamp cs [] = []) ∧
    ((∀ entry ∈ chains env, topLvl env entry.1 entry.2 timestamp = none) →
      main env timestamp = []) := by
  have hnone : ∀ cs : List (String × String),
      (∀ entry ∈ cs, topLvl env entry.1 entry.2 timestamp = none) →
      mainLoop env timestamp cs [] = [] := by
    intro cs hcs
    rw [mainLoop_eq, List.nil_append, List.flatMap_eq_nil_iff]
    intro entry hentry
    simp [recordsOf, hcs entry hentry]
  refine ⟨mainLoop_eq env timestamp, ?_, ?_, ?_, hnone, ?_⟩
  · intro entry h
    simp [recordsOf, h]
  · intro entry chainData h
    simp [recordsOf, h]
  · unfold main
    rw [mainLoop_eq, List.nil_append]
  · intro h
    unfold main
    rw [hnone _ h]
    rfl

theorem main_skips_failed_chains_witness :
    topLvl partlyFailingEnv "ethereum" "a" none = none ∧
    (∃ chainData, topLvl partlyFailingEnv "polygon" "b" none = some chainData ∧
      chainData.length = 2 ∧
      mainLoop partlyFailingEnv none [("ethereum", "a"), ("polygon", "b")] [] = chainData) ∧
    (∀ entry ∈ chains failingEnv, topLvl failingEnv entry.1 entry.2 none = none) ∧
    main failingEnv none = [] := by
  have h1 : topLvl partlyFailingEnv "ethereum" "a" none = none := rfl
  have h2 := topLvl_eq_flatMap partlyFailingEnv "polygon" "b" none [examplePool] rfl
    (fun _ _ => ⟨_, rfl⟩)
  have h3 : ∀ entry ∈ chains failingEnv, topLvl failingEnv entry.1 entry.2 none = none :=
    fun _ _ => rfl
  obtain ⟨hloop, hfail, hok, -, -, hempty⟩ := main_skips_failed_chains partlyFailingEnv none
  refine ⟨h1, ⟨_, h2, rfl, ?_⟩, h3, (main_skips_failed_chains failingEnv none).2.2.2.2.2 h3⟩
  rw [hloop, List.nil_append, List.flatMap_cons, List.flatMap_cons, List.flatMap_nil,
    hfail ("ethereum", "a") h1, hok ("polygon", "b") _ h2]
  simp

/-! ## Relations between the two yields -/

/-- The interpolated rate with its two special cases is the interpolated rate. -/
theorem rawRate_eq (u L U : ℚ) :
    (if u = 0 then L else if u = 1 then U else L + u * (U - L)) = L + u * (U - L) := by
  by_cases h0 : u = 0
  · simp [h0]
  · by_cases h1 : u = 1
    · simp [h1]
    · simp [h0, h1]

/-- C18: for every utilization u and all bounds, the lender yield is the
borrower yield times u; hence for a utilization in [0, 1] and a borrower yield
that is a non-negative number, the lender yield is a number that does not
exceed the borrower yield. -/
theorem lenderYield_eq_borrowerYield_mul (u L U : JSNum) :
    calculateActiveLenderYield u L U = JSNum.mul (calculateActiveBorrowerYield u L U) u ∧
    ∀ q y : ℚ, u = .fin q → 0 ≤ q → q ≤ 1 →
      calculateActiveBorrowerYield u L U = .fin y → 0 ≤ y →
      ∃ x : ℚ, calculateActiveLenderYield u L U = .fin x ∧ x ≤ y ∧
        JSNum.le (calculateActiveLenderYield u L U) (calculateActiveBorrowerYield u L U)
          = true := by
  have hmul : calculateActiveLenderYield u L U
      = JSNum.mul (calculateActiveBorrowerYield u L U) u := rfl
  refine ⟨hmul, ?_⟩
  intro q y hu h0 h1 hy hy0
  have hle : y * q ≤ y := by
    have := mul_le_mul_of_nonneg_left h1 hy0
    simpa using this
  refine ⟨y * q, ?_, hle, ?_⟩
  · rw [hmul, hy, hu]
    rfl
  · rw [hmul, hy, hu]
    simp [JSNum.mul, JSNum.le, hle]

theorem lenderYield_eq_borrowerYield_mul_witness :
    (0 : ℚ) ≤ 2 / 5 ∧ (2 / 5 : ℚ) ≤ 1 ∧
    calculateActiveBorrowerYield (.fin (2 / 5)) (.fin 500) (.fin 1500) = .fin 9 ∧
    (0 : ℚ) ≤ 9 ∧
    ∃ x : ℚ, calculateActiveLenderYield (.fin (2 / 5)) (.fin 500) (.fin 1500) = .fin x ∧
      x ≤ 9 ∧
      JSNum.le (calculateActiveLenderYield (.fin (2 / 5)) (.fin 500) (.fin 1500))
        (calculateActiveBorrowerYield (.fin (2 / 5)) (.fin 500) (.fin 1500)) = true := by
  have hb : calculateActiveBorrowerYield (.fin (2 / 5)) (.fin 500) (.fin 1500) = .fin 9 := by
    rw [borrowerYield_fin]
    norm_num
  exact ⟨by norm_num, by norm_num, hb, by norm_num,
    (lenderYield_eq_borrowerYield_mul (.fin (2 / 5)) (.fin 500) (.fin 1500)).2 (2 / 5) 9 rfl
      (by norm_num) (by norm_num) hb (by norm_num)⟩

/-- C19: with finite bounds the special cases at utilization 0 and 1 change
nothing: for every utilization (0 and 1 included, and NaN or an infinity as
well) the borrower yield is the branch-free (L + u * (U - L)) / 100 and the
lender yield is the branch-free ((L + u * (U - L)) / 100) * u. -/
theorem yields_eq_branchFree (u : JSNum) (L U : ℚ) :
    calculateActiveBorrowerYield u (.fin L) (.fin U)
      = branchFreeBorrowerYield u (.fin L) (.fin U) ∧
    calculateActiveLenderYield u (.fin L) (.fin U)
      = branchFreeLenderYield u (.fin L) (.fin U) ∧
    ∀ q : ℚ, u = .fin q →
      (calculateActiveBorrowerYield u (.fin L) (.fin U) = .fin ((L + q * (U - L)) / 100) ∧
       calculateActiveLenderYield u (.fin L) (.fin U) = .fin ((L + q * (U - L)) / 100 * q)) := by
  refine ⟨?_, ?_, ?_⟩
  · cases u with
    | fin q =>
      rw [borrowerYield_fin, rawRate_eq]
      simp [branchFreeBorrowerYield, JSNum.div, JSNum.add, JSNum.mul, JSNum.sub, JSNum.neg,
        sub_eq_add_neg]
    | nan => rfl
    | pinf => rfl
    | ninf => rfl
  · cases u with
    | fin q =>
      rw [lenderYield_fin, rawRate_eq]
      simp [branchFreeLenderYield, JSNum.div, JSNum.add, JSNum.mul, JSNum.sub, JSNum.neg,
        sub_eq_add_neg]
    | nan => rfl
    | pinf => rfl
    | ninf => rfl
  · intro q hq
    subst hq
    rw [borrowerYield_fin, lenderYield_fin, rawRate_eq]
    exact ⟨rfl, rfl⟩

/-- C20: for bounds with 0 ≤ L ≤ U, the lender yield does not decrease with the
utilization on [0, 1], and for every utilization u of [0, 1] the lender yield
lies in [0, U / 100] and the borrower yield in [L / 100, U / 100]. -/
theorem yields_monotone_bounded (L U u1 u2 u : ℚ) (hL : 0 ≤ L) (hLU : L ≤ U)
    (h1 : 0 ≤ u1) (h12 : u1 ≤ u2) (h2 : u2 ≤ 1) (hu0 : 0 ≤ u) (hu1 : u ≤ 1) :
    (∃ y1 y2 : ℚ, calculateActiveLenderYield (.fin u1) (.fin L) (.fin U) = .fin y1 ∧
      calculateActiveLenderYield (.fin u2) (.fin L) (.fin U) = .fin y2 ∧ y1 ≤ y2) ∧
    (∃ y : ℚ, calculateActiveLenderYield (.fin u) (.fin L) (.fin U) = .fin y ∧
      0 ≤ y ∧ y ≤ U / 100) ∧
    (∃ y : ℚ, calculateActiveBorrowerYield (.fin u) (.fin L) (.fin U) = .fin y ∧
      L / 100 ≤ y ∧ y ≤ U / 100) := by
  have hr : 0 ≤ U - L := sub_nonneg.mpr hLU
  have hraw : ∀ v : ℚ, 0 ≤ v → v ≤ 1 → L ≤ L + v * (U - L) ∧ L + v * (U - L) ≤ U := by
    intro v hv0 hv1
    constructor
    · have := mul_nonneg hv0 hr
      linarith
    · have := mul_le_mul_of_nonneg_right hv1 hr
      linarith
  refine ⟨⟨(L + u1 * (U - L)) / 100 * u1, (L + u2 * (U - L)) / 100 * u2, ?_, ?_, ?_⟩,
    ⟨(L + u * (U - L)) / 100 * u, ?_, ?_, ?_⟩, ⟨(L + u * (U - L)) / 100, ?_, ?_, ?_⟩⟩
  · rw [lenderYield_fin, rawRate_eq]
  · rw [lenderYield_fin, rawRate_eq]
  · have hu2 : 0 ≤ u2 := le_trans h1 h12
    have ha : L + u1 * (U - L) ≤ L + u2 * (U - L) := by
      have := mul_le_mul_of_nonneg_right h12 hr
      linarith
    have hb : 0 ≤ L + u2 * (U - L) := le_trans hL (hraw u2 hu2 h2).1
    have hc : (L + u1 * (U - L)) / 100 ≤ (L + u2 * (U - L)) / 100 :=
      div_le_div_of_nonneg_right ha (by norm_num)
    have hd : 0 ≤ (L + u2 * (U - L)) / 100 := div_nonneg hb (by norm_num)
    exact mul_le_mul hc h12 h1 hd
  · rw [lenderYield_fin, rawRate_eq]
  · have hb : 0 ≤ L + u * (U - L) := le_trans hL (hraw u hu0 hu1).1
    exact mul_nonneg (div_nonneg hb (by norm_num)) hu0
  · have hb : 0 ≤ L + u * (U - L) := le_trans hL (hraw u hu0 hu1).1
    have hc : (L + u * (U - L)) / 100 ≤ U / 100 :=
      div_le_div_of_nonneg_right (hraw u hu0 hu1).2 (by norm_num)
    have hd : 0 ≤ (L + u * (U - L)) / 100 := div_nonneg hb (by norm_num)
    calc (L + u * (U - L)) / 100 * u ≤ (L + u * (U - L)) / 100 * 1 :=
          mul_le_mul_of_nonneg_left hu1 hd
      _ = (L + u * (U - L)) / 100 := mul_one _
      _ ≤ U / 100 := hc
  · rw [borrowerYield_fin, rawRate_eq]
  · exact div_le_div_of_nonneg_right (hraw u hu0 hu1).1 (by norm_num)
  · exact div_le_div_of_nonneg_right (hraw u hu0 hu1).2 (by norm_num)

theorem yields_monotone_bounded_witness :
    (0 : ℚ) ≤ 500 ∧ (500 : ℚ) ≤ 1500 ∧ (0 : ℚ) ≤ 1 / 4 ∧ (1 / 4 : ℚ) ≤ 1 / 2 ∧
    (1 / 2 : ℚ) ≤ 1 ∧ (0 : ℚ) ≤ 1 ∧ (1 : ℚ) ≤ 1 ∧
    (∃ y1 y2 : ℚ, calculateActiveLenderYield (.fin (1 / 4)) (.fin 500) (.fin 1500) = .fin y1 ∧
      calculateActiveLenderYield (.fin (1 / 2)) (.fin 500) (.fin 1500) = .fin y2 ∧ y1 ≤ y2) ∧
    (∃ y : ℚ, calculateActiveLenderYield (.fin 1) (.fin 500) (.fin 1500) = .fin y ∧
      0 ≤ y ∧ y ≤ 1500 / 100) ∧
    (∃ y : ℚ, calculateActiveBorrowerYield (.fin 1) (.fin 500) (.fin 1500) = .fin y ∧
      500 / 100 ≤ y ∧ y ≤ 1500 / 100) :=
  ⟨by norm_num, by norm_num, by norm_num, by norm_num, by norm_num, by norm_num, by norm_num,
    yields_monotone_bounded 500 1500 (1 / 4) (1 / 2) 1 (by norm_num) (by norm_num)
      (by norm_num) (by norm_num) (by norm_num) (by norm_num) (by norm_num)⟩

end Teller
